import Mathlib

/-!
# Vehicle chaincode (`KBA_Automobile/Chaincode/contracts/car-contract.go`)

The rice chaincode (`KBA_Automobile/Rice_Supplychain/chaincode/rice/rice.go`)
follows further down, in the namespace `Rice`.

A shallow embedding of the car contract over an explicit model of the Fabric
stub.  Stored byte strings are modelled by the JSON document they denote, the
stub's calls can fail (the Go code tests `err != nil` after each of them), and
every transaction function returns its result together with the stub state it
leaves behind.
-/

namespace Fabric

/-- Stored bytes, modelled by the document `encoding/json` sees in them: a flat
JSON object whose members are strings, or a payload that `json.Unmarshal`
rejects. -/
inductive Bytes where
  | obj (members : List (String × String))
  | junk (raw : String)
  deriving DecidableEq, Repr

/-- The member `name` of a decoded object; a later duplicate overwrites an
earlier one and a missing member leaves the Go zero value `""`. -/
def member (name : String) : List (String × String) → String
  | [] => ""
  | (k, v) :: rest =>
    if rest.any (fun kv => kv.1 == name) then member name rest
    else if k == name then v else ""

/-- A key-value namespace: the pairs currently stored. -/
abbrev Store := List (String × Bytes)

/-- Latest value stored under `key`, `none` when the key is absent. -/
def kvGet (key : String) : Store → Option Bytes
  | [] => none
  | (k, v) :: rest => if k = key then some v else kvGet key rest

/-- Remove every pair stored under `key`. -/
def kvDel (key : String) : Store → Store
  | [] => []
  | (k, v) :: rest => if k = key then kvDel key rest else (k, v) :: kvDel key rest

/-- Upsert: the pair for `key` is replaced by `(key, value)`. -/
def kvPut (key : String) (value : Bytes) (st : Store) : Store :=
  (key, value) :: kvDel key st

/-- One entry of the history of a key, as the ledger records it for every
public-state write (`queryresult.KeyModification`). -/
structure KeyModification where
  Key : String
  TxId : String
  Value : Option Bytes
  Timestamp : Nat
  IsDelete : Bool
  deriving DecidableEq, Repr

/-- The transaction context: the caller's identity, the public state, the
restricted collection named by `getCollectionName()`, the history log, and for
each stub call the error (if any) with which it fails on a given key. -/
structure Ctx where
  mspid : Except String String
  txID : String
  txTimestamp : Nat
  world : Store
  priv : Store
  history : List KeyModification
  getStateErr : String → Option String
  putStateErr : String → Option String
  delStateErr : String → Option String
  getPrivateDataErr : String → Option String
  delPrivateDataErr : String → Option String
  getHistoryForKeyErr : String → Option String := fun _ => none
  getStateByRangeErr : String → String → Option String := fun _ _ => none
  getPrivateDataQueryResultErr : String → Option String := fun _ => none

/-- `ctx.GetClientIdentity().GetMSPID()`. -/
def GetMSPID (ctx : Ctx) : Except String String := ctx.mspid

/-- `stub.GetState(key)`: the bytes stored under `key`, `nil` when absent. -/
def GetState (ctx : Ctx) (key : String) : Except String (Option Bytes) :=
  match ctx.getStateErr key with
  | some err => .error err
  | none => .ok (kvGet key ctx.world)

/-- `stub.PutState(key, value)`. -/
def PutState (ctx : Ctx) (key : String) (value : Bytes) : Except String Ctx :=
  match ctx.putStateErr key with
  | some err => .error err
  | none => .ok { ctx with
      world := kvPut key value ctx.world
      history := ctx.history ++ [⟨key, ctx.txID, some value, ctx.txTimestamp, false⟩] }

/-- `stub.DelState(key)`. -/
def DelState (ctx : Ctx) (key : String) : Except String Ctx :=
  match ctx.delStateErr key with
  | some err => .error err
  | none => .ok { ctx with
      world := kvDel key ctx.world
      history := ctx.history ++ [⟨key, ctx.txID, none, ctx.txTimestamp, true⟩] }

/-- `stub.GetPrivateData(getCollectionName(), key)`. -/
def GetPrivateData (ctx : Ctx) (key : String) : Except String (Option Bytes) :=
  match ctx.getPrivateDataErr key with
  | some err => .error err
  | none => .ok (kvGet key ctx.priv)

/-- `stub.DelPrivateData(getCollectionName(), key)`. -/
def DelPrivateData (ctx : Ctx) (key : String) : Except String Ctx :=
  match ctx.delPrivateDataErr key with
  | some err => .error err
  | none => .ok { ctx with priv := kvDel key ctx.priv }

/-- `stub.GetHistoryForKey(key)`: the entries the ledger recorded for `key`,
from the newest to the oldest, as the peers of Fabric 2 (which the imported
`fabric-chaincode-go/v2` shim talks to) return them. -/
def GetHistoryForKey (ctx : Ctx) (key : String) : Except String (List KeyModification) :=
  match ctx.getHistoryForKeyErr key with
  | some err => .error err
  | none => .ok (ctx.history.filter (fun e => e.Key = key)).reverse

/-- Lexicographic comparison of two character sequences. -/
def charsLt : List Char → List Char → Bool
  | [], [] => false
  | [], _ :: _ => true
  | _ :: _, [] => false
  | a :: as, b :: bs => if a < b then true else if b < a then false else charsLt as bs

/-- The order of the keys of a namespace: lexicographic by character. -/
def keyLt (a b : String) : Bool := charsLt a.data b.data

/-- Insert a key into an ascending list of distinct keys. -/
def insertKey (key : String) : List String → List String
  | [] => [key]
  | k :: rest =>
    if keyLt key k then key :: k :: rest
    else if key = k then k :: rest
    else k :: insertKey key rest

/-- The keys of a namespace, ascending and without repetition. -/
def sortedKeys {α : Type} : List (String × α) → List String
  | [] => []
  | (k, _) :: rest => insertKey k (sortedKeys rest)

/-- Whether `key` lies in `[startKey, endKey)`; an empty `endKey` leaves the
range open at the top. -/
def inRange (startKey endKey key : String) : Bool :=
  !keyLt key startKey && (endKey == "" || keyLt key endKey)

/-- The pairs of a namespace whose key lies in `[startKey, endKey)`, by ascending
key. -/
def kvRange (startKey endKey : String) (st : Store) : List (String × Bytes) :=
  (sortedKeys st).filterMap fun k =>
    if inRange startKey endKey k then (kvGet k st).map (fun v => (k, v)) else none

/-- `stub.GetStateByRange(startKey, endKey)`, with the iterator read to its end. -/
def GetStateByRange (ctx : Ctx) (startKey endKey : String) :
    Except String (List (String × Bytes)) :=
  match ctx.getStateByRangeErr startKey endKey with
  | some err => .error err
  | none => .ok (kvRange startKey endKey ctx.world)

/-- Two decimal digits. -/
def pad2 (n : Nat) : String :=
  if n < 10 then "0" ++ toString n else toString n

/-- Four decimal digits (the year of a Go layout). -/
def pad4 (n : Nat) : String :=
  if n < 10 then "000" ++ toString n
  else if n < 100 then "00" ++ toString n
  else if n < 1000 then "0" ++ toString n
  else toString n

/-- Year, month and day of the day `days` after 1970-01-01. -/
def civilFromDays (days : Nat) : Nat × Nat × Nat :=
  let z := days + 719468
  let era := z / 146097
  let doe := z % 146097
  let yoe := (doe + doe / 36524 - doe / 1460 - doe / 146096) / 365
  let doy := doe - (365 * yoe + yoe / 4 - yoe / 100)
  let mp := (5 * doy + 2) / 153
  let d := doy - (153 * mp + 2) / 5 + 1
  let m := if mp < 10 then mp + 3 else mp - 9
  let y := yoe + era * 400
  (if m ≤ 2 then y + 1 else y, m, d)

/-- `timestamp.AsTime().Format(time.RFC1123)` for a timestamp of `secs` seconds
after the Unix epoch: "Mon, 02 Jan 2006 15:04:05 MST" in UTC. -/
def formatRFC1123 (secs : Nat) : String :=
  let days := secs / 86400
  let rem := secs % 86400
  let weekday := ["Thu", "Fri", "Sat", "Sun", "Mon", "Tue", "Wed"].getD (days % 7) ""
  let ymd := civilFromDays days
  let month := ["Jan", "Feb", "Mar", "Apr", "May", "Jun", "Jul", "Aug", "Sep", "Oct", "Nov",
    "Dec"].getD (ymd.2.1 - 1) ""
  weekday ++ ", " ++ pad2 ymd.2.2 ++ " " ++ month ++ " " ++ pad4 ymd.1 ++ " " ++
    pad2 (rem / 3600) ++ ":" ++ pad2 (rem % 3600 / 60) ++ ":" ++ pad2 (rem % 60) ++ " UTC"

/-- Whether `len(value) == 0` for the bytes of a history entry. -/
def emptyValue : Option Bytes → Bool
  | none => true
  | some (.junk raw) => raw == ""
  | some (.obj _) => false

/-- The member `name` of a decoded object when it has one (the last one counts). -/
def memberOpt (name : String) : List (String × String) → Option String
  | [] => none
  | (k, v) :: rest =>
    match memberOpt name rest with
    | some later => some later
    | none => if k = name then some v else none

/-- The double quote. -/
def quoteChar : Char := Char.ofNat 34

/-- The backslash. -/
def backslashChar : Char := Char.ofNat 92

/-- The opening brace. -/
def lbraceChar : Char := Char.ofNat 123

/-- The closing brace. -/
def rbraceChar : Char := Char.ofNat 125

/-- JSON white space. -/
def isWs (c : Char) : Bool :=
  c = Char.ofNat 32 || c = Char.ofNat 10 || c = Char.ofNat 13 || c = Char.ofNat 9

/-- Drop leading white space. -/
def skipWs : List Char → List Char
  | [] => []
  | c :: rest => if isWs c then skipWs rest else c :: rest

/-- The value of a hexadecimal digit. -/
def hexVal (c : Char) : Option Nat :=
  if 48 ≤ c.toNat ∧ c.toNat ≤ 57 then some (c.toNat - 48)
  else if 97 ≤ c.toNat ∧ c.toNat ≤ 102 then some (c.toNat - 87)
  else if 65 ≤ c.toNat ∧ c.toNat ≤ 70 then some (c.toNat - 55)
  else none

/-- The character a one-letter JSON escape stands for. -/
def unescape (c : Char) : Option Char :=
  if c = quoteChar then some quoteChar
  else if c = backslashChar then some backslashChar
  else if c = Char.ofNat 47 then some (Char.ofNat 47)
  else if c = Char.ofNat 98 then some (Char.ofNat 8)
  else if c = Char.ofNat 102 then some (Char.ofNat 12)
  else if c = Char.ofNat 110 then some (Char.ofNat 10)
  else if c = Char.ofNat 114 then some (Char.ofNat 13)
  else if c = Char.ofNat 116 then some (Char.ofNat 9)
  else none

/-- The rest of a JSON string after its opening quote: the characters it denotes
and the input after its closing quote; `none` when the string is not closed or
holds a control character or a bad escape. -/
def stringBody : Nat → List Char → Option (List Char × List Char)
  | 0, _ => none
  | _ + 1, [] => none
  | fuel + 1, c :: rest =>
    if c = quoteChar then some ([], rest)
    else if c = backslashChar then
      match rest with
      | [] => none
      | e :: rest2 =>
        if e = Char.ofNat 117 then
          match rest2 with
          | h1 :: h2 :: h3 :: h4 :: rest3 =>
            match hexVal h1, hexVal h2, hexVal h3, hexVal h4 with
            | some a, some b, some c4, some d =>
              (stringBody fuel rest3).map fun r =>
                (Char.ofNat (((a * 16 + b) * 16 + c4) * 16 + d) :: r.1, r.2)
            | _, _, _, _ => none
          | _ => none
        else
          match unescape e with
          | none => none
          | some ch => (stringBody fuel rest2).map fun r => (ch :: r.1, r.2)
    else if c.toNat < 32 then none
    else (stringBody fuel rest).map fun r => (c :: r.1, r.2)

/-- The members of a JSON object whose values are strings, read from just
before the first member name up to the closing brace. -/
def stringMembers : Nat → List Char → Option (List (String × String) × List Char)
  | 0, _ => none
  | fuel + 1, cs =>
    match skipWs cs with
    | [] => none
    | q :: r0 =>
      if q = quoteChar then
        match stringBody r0.length r0 with
        | none => none
        | some (k, r1) =>
          match skipWs r1 with
          | [] => none
          | colon :: r2 =>
            if colon = Char.ofNat 58 then
              match skipWs r2 with
              | [] => none
              | q2 :: r3 =>
                if q2 = quoteChar then
                  match stringBody r3.length r3 with
                  | none => none
                  | some (v, r4) =>
                    match skipWs r4 with
                    | [] => none
                    | sep :: r5 =>
                      if sep = Char.ofNat 44 then
                        (stringMembers fuel r5).map fun r =>
                          ((String.mk k, String.mk v) :: r.1, r.2)
                      else if sep = rbraceChar then some ([(String.mk k, String.mk v)], r5)
                      else none
                else none
            else none
      else none

/-- A JSON object whose values are strings, read from just after its opening
brace. -/
def stringObject (cs : List Char) : Option (List (String × String) × List Char) :=
  match skipWs cs with
  | [] => none
  | c :: rest => if c = rbraceChar then some ([], rest) else stringMembers cs.length cs

/-- The selector of a query text of the shape
`{"selector": {"field": "value", ...}}`: the field and value pairs, all
of which a document must have to be selected.  Text that is not well-formed
JSON, and queries outside this equality fragment, give `none`. -/
def parseSelector (query : String) : Option (List (String × String)) :=
  match skipWs query.data with
  | [] => none
  | c :: r0 =>
    if c = lbraceChar then
      match skipWs r0 with
      | [] => none
      | q :: r1 =>
        if q = quoteChar then
          match stringBody r1.length r1 with
          | none => none
          | some (name, r2) =>
            if String.mk name = "selector" then
              match skipWs r2 with
              | [] => none
              | colon :: r3 =>
                if colon = Char.ofNat 58 then
                  match skipWs r3 with
                  | [] => none
                  | b :: r4 =>
                    if b = lbraceChar then
                      match stringObject r4 with
                      | none => none
                      | some (fields, r5) =>
                        match skipWs r5 with
                        | [] => none
                        | e :: r6 =>
                          if e = rbraceChar then
                            match skipWs r6 with
                            | [] => some fields
                            | _ :: _ => none
                          else none
                    else none
                else none
            else none
        else none
    else none

/-- Whether a stored document has every field of the selector with the value
the selector gives. -/
def selects (selector : List (String × String)) : Bytes → Bool
  | .obj ms => selector.all fun fv => memberOpt fv.1 ms == some fv.2
  | .junk _ => false

/-- `stub.GetPrivateDataQueryResult(getCollectionName(), query)`, with the
iterator read to its end: the documents of the collection the selector selects,
by ascending key. -/
def GetPrivateDataQueryResult (ctx : Ctx) (query : String) :
    Except String (List (String × Bytes)) :=
  match ctx.getPrivateDataQueryResultErr query with
  | some err => .error err
  | none =>
    match parseSelector query with
    | none => .error "invalid query"
    | some selector =>
      .ok ((sortedKeys ctx.priv).filterMap fun k =>
        match kvGet k ctx.priv with
        | some v => if selects selector v then some (k, v) else none
        | none => none)

/-- What a transaction function hands back: a value, a Go `error`, or a
run-time panic. -/
inductive Outcome (α : Type) where
  | ok (val : α)
  | error (msg : String)
  | panic
  deriving DecidableEq, Repr

end Fabric

namespace Contracts

open Fabric

/-- `type Car struct`, with the Go field names. -/
structure Car where
  AssetType : String
  CarId : String
  Color : String
  DateOfManufacture : String
  Make : String
  Model : String
  OwnedBy : String
  Status : String
  deriving DecidableEq, Repr

/-- `json.Marshal(car)`: the members in declaration order under their json tags. -/
def marshalCar (car : Car) : Bytes :=
  .obj [("assetType", car.AssetType), ("carId", car.CarId), ("color", car.Color),
        ("dateOfManufacture", car.DateOfManufacture), ("make", car.Make),
        ("model", car.Model), ("ownedBy", car.OwnedBy), ("status", car.Status)]

/-- `json.Unmarshal(bytes, &car)` into a fresh `Car`. -/
def unmarshalCar : Bytes → Option Car
  | .obj ms => some
      { AssetType := member "assetType" ms, CarId := member "carId" ms,
        Color := member "color" ms,
        DateOfManufacture := member "dateOfManufacture" ms,
        Make := member "make" ms, Model := member "model" ms,
        OwnedBy := member "ownedBy" ms, Status := member "status" ms }
  | .junk _ => none

/-- Modelled from the spec: the `Order` type (its declaration is in the order
contract, which is not among the sources): the restricted record with its
matching criteria make, model and color and the requester, which
`car-contract.go` reads as `order.Make`, `order.Model`, `order.Color` and
`order.DealerName`. -/
structure Order where
  AssetType : String
  Color : String
  DealerName : String
  Make : String
  Model : String
  deriving DecidableEq, Repr

/-- Modelled from the spec: the stored form of an `Order`, a flat JSON object;
`assetType`, `make`, `model` and `color` are the member names of the selector
in `GetMatchingOrders`. -/
def marshalOrder (order : Order) : Bytes :=
  .obj [("assetType", order.AssetType), ("color", order.Color),
        ("dealerName", order.DealerName), ("make", order.Make),
        ("model", order.Model)]

/-- Modelled from the spec: decoding a stored `Order`. -/
def unmarshalOrder : Bytes → Option Order
  | .obj ms => some
      { AssetType := member "assetType" ms, Color := member "color" ms,
        DealerName := member "dealerName" ms, Make := member "make" ms,
        Model := member "model" ms }
  | .junk _ => none

/-- Modelled from the spec: `ReadPrivateState` (defined in the order contract,
which is not among the sources) "reads a RestrictedRecord by id" from the
restricted collection: a store failure, an absent record and a record that
does not parse are errors. -/
def ReadPrivateState (ctx : Ctx) (orderID : String) : Except String Order :=
  match GetPrivateData ctx orderID with
  | .error err => .error ("failed to read from private data collection: " ++ err)
  | .ok none => .error ("the order " ++ orderID ++ " does not exist")
  | .ok (some bytes) =>
    match unmarshalOrder bytes with
    | none => .error "could not unmarshal private data collection data to type Order"
    | some order => .ok order

/-- `CarExists`: true when a value is stored under `carID`. -/
def CarExists (ctx : Ctx) (carID : String) : Except String Bool :=
  match GetState ctx carID with
  | .error err => .error ("failed to read from world state: " ++ err)
  | .ok data => .ok data.isSome

/-- `CreateCar`. -/
def CreateCar (ctx : Ctx) (carID make model color manufacturerName dateOfManufacture : String) :
    Outcome String × Ctx :=
  match GetMSPID ctx with
  | .error err => (.error err, ctx)
  | .ok clientOrgID =>
    if clientOrgID = "Org1MSP" then
      match CarExists ctx carID with
      | .error err => (.error err, ctx)
      | .ok true => (.error ("the car, " ++ carID ++ " already exists"), ctx)
      | .ok false =>
        let car : Car :=
          { AssetType := "car", CarId := carID, Color := color,
            DateOfManufacture := dateOfManufacture, Make := make, Model := model,
            OwnedBy := manufacturerName, Status := "In Factory" }
        let bytes := marshalCar car
        match PutState ctx carID bytes with
        | .error err => (.error err, ctx)
        | .ok ctx1 => (.ok ("successfully added car " ++ carID), ctx1)
    else
      (.error ("user under following MSPID: " ++ clientOrgID ++ " can't perform this action"), ctx)

/-- `ReadCar`. -/
def ReadCar (ctx : Ctx) (carID : String) : Except String Car :=
  match GetState ctx carID with
  | .error err => .error ("failed to read from world state: " ++ err)
  | .ok none => .error ("the car " ++ carID ++ " does not exist")
  | .ok (some bytes) =>
    match unmarshalCar bytes with
    | none => .error "could not unmarshal world state data to type Car"
    | some car => .ok car

/-- `DeleteCar`. -/
def DeleteCar (ctx : Ctx) (carID : String) : Outcome String × Ctx :=
  match GetMSPID ctx with
  | .error err => (.error err, ctx)
  | .ok clientOrgID =>
    if clientOrgID = "Org1MSP" then
      match CarExists ctx carID with
      | .error err => (.error ("Could not read from world state. " ++ err), ctx)
      | .ok false => (.error ("The asset " ++ carID ++ " does not exist"), ctx)
      | .ok true =>
        match DelState ctx carID with
        | .error err => (.error err, ctx)
        | .ok ctx1 =>
          (.ok ("Car with id " ++ carID ++ " is deleted from the world state."), ctx1)
    else
      (.error ("User under following MSP:" ++ clientOrgID ++
        " cannot able to perform this action"), ctx)

/-- `MatchOrder`: the result of `DelPrivateData` is discarded, then the car is
written. -/
def MatchOrder (ctx : Ctx) (carID orderID : String) : Outcome String × Ctx :=
  match ReadPrivateState ctx orderID with
  | .error err => (.error err, ctx)
  | .ok order =>
    match ReadCar ctx carID with
    | .error err => (.error err, ctx)
    | .ok car =>
      if car.Make = order.Make ∧ car.Color = order.Color ∧ car.Model = order.Model then
        let car1 : Car := { car with OwnedBy := order.DealerName }
        let car2 : Car := { car1 with Status := "assigned to a dealer" }
        let bytes := marshalCar car2
        let ctx1 :=
          match DelPrivateData ctx orderID with
          | .error _ => ctx
          | .ok c => c
        match PutState ctx1 carID bytes with
        | .error err => (.error err, ctx1)
        | .ok ctx2 =>
          (.ok ("Deleted order " ++ orderID ++ " and Assigned " ++ car2.CarId ++ " to " ++
            order.DealerName), ctx2)
      else
        (.error "order is not matching", ctx)

/-- `RegisterCar`: the error of `ReadCar` is discarded, so a failed read leaves
a nil `car` whose field assignment panics. -/
def RegisterCar (ctx : Ctx) (carID ownerName registrationNumber : String) :
    Outcome String × Ctx :=
  match GetMSPID ctx with
  | .error err => (.error err, ctx)
  | .ok clientOrgID =>
    if clientOrgID = "Org3MSP" then
      match CarExists ctx carID with
      | .error err => (.error ("Could not read from world state. " ++ err), ctx)
      | .ok true =>
        match ReadCar ctx carID with
        | .error _ => (.panic, ctx)
        | .ok car =>
          let car1 : Car :=
            { car with Status := "Registered to " ++ ownerName ++ " with plate number " ++
                registrationNumber }
          let car2 : Car := { car1 with OwnedBy := ownerName }
          let bytes := marshalCar car2
          match PutState ctx carID bytes with
          | .error err => (.error err, ctx)
          | .ok ctx1 =>
            (.ok ("Car " ++ carID ++ " successfully registered to " ++ ownerName), ctx1)
      | .ok false => (.error ("Car " ++ carID ++ " does not exist!"), ctx)
    else
      (.error ("User under following MSPID: " ++ clientOrgID ++
        " cannot able to perform this action"), ctx)

/-- `type HistoryQueryResult struct`. -/
structure HistoryQueryResult where
  Record : Car
  TxId : String
  Timestamp : String
  IsDelete : Bool
  deriving DecidableEq, Repr

/-- The error `json.Unmarshal` returns for bytes it rejects (its text is not
modelled). -/
def unmarshalError : String := "json: cannot unmarshal"

/-- `carResultIteratorFunction`: every value of the iterator decoded into a
`Car`, the first value that does not decode ending the loop with its error. -/
def carResultIteratorFunction : List (String × Bytes) → Except String (List Car)
  | [] => .ok []
  | (_, value) :: rest =>
    match unmarshalCar value with
    | none => .error unmarshalError
    | some car =>
      match carResultIteratorFunction rest with
      | .error err => .error err
      | .ok cars => .ok (car :: cars)

/-- `GetCarsByRange`. -/
def GetCarsByRange (ctx : Ctx) (startKey endKey : String) : Except String (List Car) :=
  match GetStateByRange ctx startKey endKey with
  | .error err => .error err
  | .ok results => carResultIteratorFunction results

/-- The loop of `GetCarHistory` over the entries of the history iterator. -/
def historyRecords (carID : String) :
    List KeyModification → Except String (List HistoryQueryResult)
  | [] => .ok []
  | response :: rest =>
    let decoded : Except String Car :=
      if !emptyValue response.Value then
        match response.Value.bind unmarshalCar with
        | none => .error unmarshalError
        | some car => .ok car
      else
        .ok { AssetType := "", CarId := carID, Color := "", DateOfManufacture := "",
              Make := "", Model := "", OwnedBy := "", Status := "" }
    match decoded with
    | .error err => .error err
    | .ok car =>
      match historyRecords carID rest with
      | .error err => .error err
      | .ok records =>
        .ok ({ Record := car, TxId := response.TxId,
               Timestamp := formatRFC1123 response.Timestamp,
               IsDelete := response.IsDelete } :: records)

/-- `GetCarHistory`. -/
def GetCarHistory (ctx : Ctx) (carID : String) : Except String (List HistoryQueryResult) :=
  match GetHistoryForKey ctx carID with
  | .error err => .error err
  | .ok responses => historyRecords carID responses

/-- Modelled from the spec: `orderResultIteratorFunction` (defined in the order
contract, which is not among the sources), the counterpart of
`carResultIteratorFunction` for the restricted records a query returns. -/
def orderResultIteratorFunction : List (String × Bytes) → Except String (List Order)
  | [] => .ok []
  | (_, value) :: rest =>
    match unmarshalOrder value with
    | none => .error unmarshalError
    | some order =>
      match orderResultIteratorFunction rest with
      | .error err => .error err
      | .ok orders => .ok (order :: orders)

/-- `GetMatchingOrders`; the selector text is built from the fields of the car
as they are. -/
def GetMatchingOrders (ctx : Ctx) (carID : String) : Outcome (List Order) × Ctx :=
  match CarExists ctx carID with
  | .error err => (.error ("Could not read from world state. " ++ err), ctx)
  | .ok false => (.error ("The asset " ++ carID ++ " does not exist"), ctx)
  | .ok true =>
    match ReadCar ctx carID with
    | .error err => (.error ("Error reading car " ++ err), ctx)
    | .ok car =>
      let queryString := "\x7b\"selector\":\x7b\"assetType\":\"Order\",\"make\":\"" ++
        car.Make ++ "\", \"model\": \"" ++ car.Model ++ "\", \"color\":\"" ++ car.Color ++
        "\"\x7d\x7d"
      match GetPrivateDataQueryResult ctx queryString with
      | .error err => (.error err, ctx)
      | .ok results =>
        match orderResultIteratorFunction results with
        | .error err => (.error err, ctx)
        | .ok orders => (.ok orders, ctx)

/-- One step of the ledger: a call of one of the four transactions, or the
start of another transaction (another caller, transaction id and time, other
orders in the collection, other failures of the store) on the same public state
and history. -/
inductive Step : Ctx → Ctx → Prop where
  | createCar (ctx : Ctx) (carID make model color manufacturerName dateOfManufacture : String) :
      Step ctx (CreateCar ctx carID make model color manufacturerName dateOfManufacture).2
  | matchOrder (ctx : Ctx) (carID orderID : String) : Step ctx (MatchOrder ctx carID orderID).2
  | registerCar (ctx : Ctx) (carID ownerName registrationNumber : String) :
      Step ctx (RegisterCar ctx carID ownerName registrationNumber).2
  | deleteCar (ctx : Ctx) (carID : String) : Step ctx (DeleteCar ctx carID).2
  | newTx (ctx next : Ctx) (hworld : next.world = ctx.world)
      (hhistory : next.history = ctx.history) : Step ctx next

/-- The ledgers reachable from the empty one. -/
inductive Reachable : Ctx → Prop where
  | empty (ctx : Ctx) (hworld : ctx.world = []) (hhistory : ctx.history = []) : Reachable ctx
  | step (ctx next : Ctx) (hreach : Reachable ctx) (hstep : Step ctx next) : Reachable next

/-- The context `MatchOrder` leaves when the order matches and both writes go
through. -/
def matchedCtx (ctx : Ctx) (carID orderID : String) (car : Car) (order : Order) : Ctx :=
  { ctx with
    priv := kvDel orderID ctx.priv
    world := kvPut carID (marshalCar { car with OwnedBy := order.DealerName,
                                                Status := "assigned to a dealer" }) ctx.world
    history := ctx.history ++
      [⟨carID, ctx.txID, some (marshalCar { car with OwnedBy := order.DealerName,
                                                     Status := "assigned to a dealer" }),
        ctx.txTimestamp, false⟩] }

end Contracts

/-! ## Example ledgers -/

namespace Contracts

open Fabric

/-- The car of the scenarios as `CreateCar` stores it. -/
def carV1 : Car :=
  { AssetType := "car", CarId := "V1", Color := "Red", DateOfManufacture := "2024-01-01",
    Make := "Toyota", Model := "Corolla", OwnedBy := "FactoryCo", Status := "In Factory" }

/-- The order of scenario 2. -/
def orderO1 : Order :=
  { AssetType := "Order", Color := "Red", DealerName := "Dealer9", Make := "Toyota",
    Model := "Corolla" }

/-- The order of scenario 3: the color differs from that of `carV1`. -/
def orderBlue : Order := { orderO1 with Color := "Blue" }

/-- An empty ledger with a working store, called by `org`. -/
def emptyCtx (org : String) : Ctx :=
  { mspid := .ok org, txID := "tx0", txTimestamp := 0, world := [], priv := [], history := [],
    getStateErr := fun _ => none, putStateErr := fun _ => none, delStateErr := fun _ => none,
    getPrivateDataErr := fun _ => none, delPrivateDataErr := fun _ => none }

/-- A ledger holding `carV1` under "V1" and the order `order` under "O1". -/
def ctxWith (org : String) (car : Car) (order : Order) : Ctx :=
  { emptyCtx org with world := [("V1", marshalCar car)], priv := [("O1", marshalOrder order)] }

/-- The car "V1" after `RegisterCar` for "Alice" with plate "KL-01". -/
def carRegistered : Car :=
  { carV1 with Status := "Registered to Alice with plate number KL-01", OwnedBy := "Alice" }

/-- A ledger holding `carV1` and `orderO1` whose restricted collection refuses
the deletion of "O1". -/
def ctxDelFails : Ctx :=
  { ctxWith "Org2MSP" carV1 orderO1 with
    delPrivateDataErr := fun key => if key = "O1" then some "collection unavailable" else none }

/-- A ledger holding `carV1` and `orderO1` whose public state refuses the write
of "V1". -/
def ctxPutFails : Ctx :=
  { ctxWith "Org2MSP" carV1 orderO1 with
    putStateErr := fun key => if key = "V1" then some "state database unavailable" else none }

end Contracts

/-!
# Rice chaincode (`KBA_Automobile/Rice_Supplychain/chaincode/rice/rice.go`)

The rice contract runs on a ledger of its own.  Its stored documents have a
number member (`quantity`, `pricePerKg`), so a member value is a string, a
number, `null` or something else.
-/

namespace Rice

/-- A member value of a JSON object as `encoding/json` sees it when it decodes
into a struct of strings and numbers: a string, a number (carried as the value
of the Go number type it is decoded into), `null`, or any other value. -/
inductive Value (ν : Type) where
  | str (s : String)
  | num (x : ν)
  | null
  | other
  deriving DecidableEq, Repr

/-- Stored bytes: a JSON object, or a payload that `json.Unmarshal` rejects as
not being JSON. -/
inductive Doc (ν : Type) where
  | obj (members : List (String × Value ν))
  | junk (raw : String)
  deriving DecidableEq, Repr

/-- A Go `float64`, which the contract only stores and returns. -/
structure Float64 where
  bits : Nat
  deriving DecidableEq, Repr

/-- Latest value stored under `key`, `none` when the key is absent. -/
def kvGet {α : Type} (key : String) : List (String × α) → Option α
  | [] => none
  | (k, v) :: rest => if k = key then some v else kvGet key rest

/-- Remove every pair stored under `key`. -/
def kvDel {α : Type} (key : String) : List (String × α) → List (String × α)
  | [] => []
  | (k, v) :: rest => if k = key then kvDel key rest else (k, v) :: kvDel key rest

/-- Upsert: the pair for `key` is replaced by `(key, value)`. -/
def kvPut {α : Type} (key : String) (value : α) (st : List (String × α)) : List (String × α) :=
  (key, value) :: kvDel key st

/-- The transaction context of the rice chaincode: the caller's client id, the
transient map, the public state, the collection "ricePrivateData", and for each
stub call the error (if any) with which it fails. -/
structure Ctx where
  clientID : Except String String
  transient : Except String (List (String × Doc Float64))
  world : List (String × Doc Int)
  priv : List (String × Doc Float64)
  getStateErr : String → Option String := fun _ => none
  putStateErr : String → Option String := fun _ => none
  getPrivateDataErr : String → Option String := fun _ => none
  putPrivateDataErr : String → Option String := fun _ => none
  getQueryResultErr : String → Option String := fun _ => none

/-- `stub.GetState(key)`. -/
def GetState (ctx : Ctx) (key : String) : Except String (Option (Doc Int)) :=
  match ctx.getStateErr key with
  | some err => .error err
  | none => .ok (kvGet key ctx.world)

/-- `stub.PutState(key, value)`. -/
def PutState (ctx : Ctx) (key : String) (value : Doc Int) : Except String Ctx :=
  match ctx.putStateErr key with
  | some err => .error err
  | none => .ok { ctx with world := kvPut key value ctx.world }

/-- `stub.GetPrivateData("ricePrivateData", key)`. -/
def GetPrivateData (ctx : Ctx) (key : String) : Except String (Option (Doc Float64)) :=
  match ctx.getPrivateDataErr key with
  | some err => .error err
  | none => .ok (kvGet key ctx.priv)

/-- `stub.PutPrivateData("ricePrivateData", key, value)`. -/
def PutPrivateData (ctx : Ctx) (key : String) (value : Doc Float64) : Except String Ctx :=
  match ctx.putPrivateDataErr key with
  | some err => .error err
  | none => .ok { ctx with priv := kvPut key value ctx.priv }

/-- The last member called `name` of a decoded object. -/
def lastMember {α : Type} (name : String) : List (String × α) → Option α
  | [] => none
  | (k, v) :: rest =>
    match lastMember name rest with
    | some later => some later
    | none => if k = name then some v else none

/-- Whether a stored document has every field of the selector as a string
member with the value the selector gives. -/
def selects (selector : List (String × String)) : Doc Int → Bool
  | .obj ms => selector.all fun fv => lastMember fv.1 ms == some (.str fv.2)
  | .junk _ => false

/-- `stub.GetQueryResult(query)`, with the iterator read to its end: the
documents of the public state the selector selects, by ascending key. -/
def GetQueryResult (ctx : Ctx) (query : String) : Except String (List (String × Doc Int)) :=
  match ctx.getQueryResultErr query with
  | some err => .error err
  | none =>
    match Fabric.parseSelector query with
    | none => .error "invalid query"
    | some selector =>
      .ok ((Fabric.sortedKeys ctx.world).filterMap fun k =>
        match kvGet k ctx.world with
        | some v => if selects selector v then some (k, v) else none
        | none => none)

/-- `type RiceBatch struct`. -/
structure RiceBatch where
  BatchID : String
  Farmer : String
  HarvestDate : String
  Quantity : Int
  Location : String
  QualityGrade : String
  CurrentHolder : String
  deriving DecidableEq, Repr

/-- `type PrivateDetails struct`. -/
structure PrivateDetails where
  PricePerKg : Float64
  GradeNote : String
  deriving DecidableEq, Repr

/-- Whether an integer fits the Go type `int` (64 bits). -/
def inInt64 (n : Int) : Bool := decide (-9223372036854775808 ≤ n ∧ n ≤ 9223372036854775807)

/-- The value a string field called `name` has after decoding the members in
order into a zeroed struct: a string member sets it, any other member leaves
it. -/
def strField {ν : Type} (name : String) (ms : List (String × Value ν)) : String :=
  ms.foldl (fun acc kv =>
    if kv.1 = name then
      match kv.2 with
      | .str s => s
      | _ => acc
    else acc) ""

/-- The value an `int` field called `name` has after decoding: a number member
that fits sets it, any other member leaves it. -/
def intField (name : String) (ms : List (String × Value Int)) : Int :=
  ms.foldl (fun acc kv =>
    if kv.1 = name then
      match kv.2 with
      | .num n => if inInt64 n then n else acc
      | _ => acc
    else acc) 0

/-- The value a `float64` field called `name` has after decoding. -/
def floatField (name : String) (ms : List (String × Value Float64)) : Float64 :=
  ms.foldl (fun acc kv =>
    if kv.1 = name then
      match kv.2 with
      | .num x => x
      | _ => acc
    else acc) ⟨0⟩

/-- Whether some member called `name` cannot be decoded into a string field. -/
def strFieldBad {ν : Type} (name : String) (ms : List (String × Value ν)) : Bool :=
  ms.any fun kv =>
    kv.1 = name &&
      match kv.2 with
      | .str _ => false
      | .null => false
      | _ => true

/-- Whether some member called `name` cannot be decoded into an `int` field. -/
def intFieldBad (name : String) (ms : List (String × Value Int)) : Bool :=
  ms.any fun kv =>
    kv.1 = name &&
      match kv.2 with
      | .num n => !inInt64 n
      | .null => false
      | _ => true

/-- Whether some member called `name` cannot be decoded into a `float64` field. -/
def floatFieldBad (name : String) (ms : List (String × Value Float64)) : Bool :=
  ms.any fun kv =>
    kv.1 = name &&
      match kv.2 with
      | .num _ => false
      | .null => false
      | _ => true

/-- `json.Marshal(batch)`. -/
def marshalBatch (batch : RiceBatch) : Doc Int :=
  .obj [("batchID", .str batch.BatchID), ("farmer", .str batch.Farmer),
        ("harvestDate", .str batch.HarvestDate), ("quantity", .num batch.Quantity),
        ("location", .str batch.Location), ("qualityGrade", .str batch.QualityGrade),
        ("currentHolder", .str batch.CurrentHolder)]

/-- `json.Unmarshal(bytes, &batch)` into a zeroed `RiceBatch`: the struct it
leaves and the error it returns.  Bytes that are not JSON leave the struct
zeroed; a member of the wrong type is skipped and reported. -/
def unmarshalBatch : Doc Int → RiceBatch × Option String
  | .junk _ =>
    ({ BatchID := "", Farmer := "", HarvestDate := "", Quantity := 0, Location := "",
       QualityGrade := "", CurrentHolder := "" }, some Contracts.unmarshalError)
  | .obj ms =>
    ({ BatchID := strField "batchID" ms, Farmer := strField "farmer" ms,
       HarvestDate := strField "harvestDate" ms, Quantity := intField "quantity" ms,
       Location := strField "location" ms, QualityGrade := strField "qualityGrade" ms,
       CurrentHolder := strField "currentHolder" ms },
     if strFieldBad "batchID" ms || strFieldBad "farmer" ms || strFieldBad "harvestDate" ms ||
        intFieldBad "quantity" ms || strFieldBad "location" ms ||
        strFieldBad "qualityGrade" ms || strFieldBad "currentHolder" ms
     then some Contracts.unmarshalError else none)

/-- `json.Marshal(details)`. -/
def marshalDetails (details : PrivateDetails) : Doc Float64 :=
  .obj [("pricePerKg", .num details.PricePerKg), ("gradeNote", .str details.GradeNote)]

/-- `json.Unmarshal(bytes, &details)` into a zeroed `PrivateDetails`. -/
def unmarshalDetails : Doc Float64 → PrivateDetails × Option String
  | .junk _ => ({ PricePerKg := ⟨0⟩, GradeNote := "" }, some Contracts.unmarshalError)
  | .obj ms =>
    ({ PricePerKg := floatField "pricePerKg" ms, GradeNote := strField "gradeNote" ms },
     if floatFieldBad "pricePerKg" ms || strFieldBad "gradeNote" ms
     then some Contracts.unmarshalError else none)

/-- The number a sequence of decimal digits denotes, read in base ten with no
bound on its size, `none` when a character is not a digit.  It is the value of
a text in the mathematical sense, against which the bounded loop of
`strconv` is compared. -/
def digitsValue : List Char → Nat → Option Nat
  | [], acc => some acc
  | c :: rest, acc =>
    if 48 ≤ c.toNat ∧ c.toNat ≤ 57 then digitsValue rest (acc * 10 + (c.toNat - 48)) else none

/-- The text after an optional leading sign. -/
def unsignedPart (s : String) : List Char :=
  match s.data with
  | [] => []
  | c :: rest => if c = Char.ofNat 43 ∨ c = Char.ofNat 45 then rest else c :: rest

/-- Whether the text starts with a minus sign. -/
def isNegative (s : String) : Bool :=
  match s.data with
  | [] => false
  | c :: _ => c = Char.ofNat 45

/-- The two errors of `strconv`: `ErrSyntax` and `ErrRange`. -/
inductive NumError where
  | malformed
  | outOfRange
  deriving DecidableEq, Repr

/-- The digit loop of `strconv.ParseUint(s, 10, 64)`, started with `n`: it reads
the characters from the left, stops with `ErrSyntax` at a character that is not
a decimal digit, and stops with `ErrRange` at the digit with which the number
no longer fits 64 bits, without reading what follows. -/
def parseUintLoop : List Char → Nat → Except NumError Nat
  | [], n => .ok n
  | c :: rest, n =>
    if 48 ≤ c.toNat ∧ c.toNat ≤ 57 then
      if 1844674407370955162 ≤ n then .error .outOfRange
      else if 18446744073709551615 < n * 10 + (c.toNat - 48) then .error .outOfRange
      else parseUintLoop rest (n * 10 + (c.toNat - 48))
    else .error .malformed

/-- What `strconv.ParseInt` makes of the result of `ParseUint`, as a value and
whether the error is nil: a syntax error gives 0; a range error, or a number
that does not fit `int` with the sign `neg`, gives the nearest bound of `int`,
each with an error; any other number is returned with its sign. -/
def signedResult (neg : Bool) : Except NumError Nat → Int × Bool
  | .error .malformed => (0, false)
  | .error .outOfRange =>
    if neg then (-9223372036854775808, false) else (9223372036854775807, false)
  | .ok un =>
    if neg then
      if 9223372036854775808 < un then (-9223372036854775808, false) else (-(un : Int), true)
    else
      if 9223372036854775808 ≤ un then (9223372036854775807, false) else ((un : Int), true)

/-- `strconv.Atoi(s)`: the value and whether the error is nil.  The sign is
picked off and the rest goes through the digit loop of `ParseUint`; a text
with nothing after the sign is a syntax error.  (The fast path of `Atoi` for
texts shorter than 19 bytes computes the same results: up to 18 digits never
leave the range.) -/
def Atoi (s : String) : Int × Bool :=
  match unsignedPart s with
  | [] => (0, false)
  | digits => signedResult (isNegative s) (parseUintLoop digits 0)

/-- The integer with magnitude `v` and the sign `neg`. -/
def withSign (neg : Bool) (v : Nat) : Int := if neg then -(v : Int) else (v : Int)

/-- The integer a decimal text denotes, in the sense of the specification: an
optional sign followed by one or more decimal digits, read in base ten with no
bound on the size; `none` for any other text. -/
def decimalValue (s : String) : Option Int :=
  match unsignedPart s with
  | [] => none
  | digits => Option.map (withSign (isNegative s)) (digitsValue digits 0)

/-- `RiceBatchExists`. -/
def RiceBatchExists (ctx : Ctx) (batchID : String) : Except String Bool :=
  match GetState ctx batchID with
  | .error err => .error err
  | .ok data => .ok data.isSome

/-- `AddRiceBatch`: the errors of `strconv.Atoi` and of `GetID` are discarded. -/
def AddRiceBatch (ctx : Ctx) (batchID harvestDate quantityStr location qualityGrade : String) :
    Fabric.Outcome Unit × Ctx :=
  match RiceBatchExists ctx batchID with
  | .error err => (.error err, ctx)
  | .ok true => (.error ("batch " ++ batchID ++ " already exists"), ctx)
  | .ok false =>
    let quantity := (Atoi quantityStr).1
    let clientID :=
      match ctx.clientID with
      | .ok id => id
      | .error _ => ""
    let batch : RiceBatch :=
      { BatchID := batchID, Farmer := clientID, HarvestDate := harvestDate,
        Quantity := quantity, Location := location, QualityGrade := qualityGrade,
        CurrentHolder := "Farmer" }
    let batchJSON := marshalBatch batch
    match PutState ctx batchID batchJSON with
    | .error err => (.error err, ctx)
    | .ok ctx1 => (.ok (), ctx1)

/-- `AddPrivateDetails`. -/
def AddPrivateDetails (ctx : Ctx) (batchID : String) : Fabric.Outcome Unit × Ctx :=
  match ctx.transient with
  | .error err => (.error err, ctx)
  | .ok transientMap =>
    match kvGet "privateDetails" transientMap with
    | none => (.error "privateDetails key not found in transient map", ctx)
    | some privateJSON =>
      match unmarshalDetails privateJSON with
      | (_, some err) => (.error ("unmarshal error: " ++ err), ctx)
      | (details, none) =>
        let privateDetailsJSON := marshalDetails details
        match PutPrivateData ctx batchID privateDetailsJSON with
        | .error err => (.error err, ctx)
        | .ok ctx1 => (.ok (), ctx1)

/-- `ReadRiceBatch`: the error of `json.Unmarshal` is discarded. -/
def ReadRiceBatch (ctx : Ctx) (batchID : String) : Except String RiceBatch :=
  match GetState ctx batchID with
  | .error err => .error err
  | .ok none => .error ("batch " ++ batchID ++ " does not exist")
  | .ok (some batchJSON) => .ok (unmarshalBatch batchJSON).1

/-- `TransferToMiller`. -/
def TransferToMiller (ctx : Ctx) (batchID : String) : Fabric.Outcome Unit × Ctx :=
  match ReadRiceBatch ctx batchID with
  | .error err => (.error err, ctx)
  | .ok batch =>
    let batch1 : RiceBatch := { batch with CurrentHolder := "Miller" }
    let batchJSON := marshalBatch batch1
    match PutState ctx batchID batchJSON with
    | .error err => (.error err, ctx)
    | .ok ctx1 => (.ok (), ctx1)

/-- `TransferToRetailer`. -/
def TransferToRetailer (ctx : Ctx) (batchID : String) : Fabric.Outcome Unit × Ctx :=
  match ReadRiceBatch ctx batchID with
  | .error err => (.error err, ctx)
  | .ok batch =>
    let batch1 : RiceBatch := { batch with CurrentHolder := "Retailer" }
    let batchJSON := marshalBatch batch1
    match PutState ctx batchID batchJSON with
    | .error err => (.error err, ctx)
    | .ok ctx1 => (.ok (), ctx1)

/-- `ReadPrivateDetails`: the error of `json.Unmarshal` is discarded. -/
def ReadPrivateDetails (ctx : Ctx) (batchID : String) : Except String PrivateDetails :=
  match GetPrivateData ctx batchID with
  | .error err => .error err
  | .ok none => .error ("no private data found for batch " ++ batchID)
  | .ok (some data) => .ok (unmarshalDetails data).1

/-- `QueryByLocation`; the selector text is built from `location` as it is. -/
def QueryByLocation (ctx : Ctx) (location : String) : Except String (List RiceBatch) :=
  let query := "\x7b\"selector\":\x7b\"location\":\"" ++ location ++ "\"\x7d\x7d"
  match GetQueryResult ctx query with
  | .error err => .error err
  | .ok results => .ok (results.map fun result => (unmarshalBatch result.2).1)

/-- `QueryByQuality`; the selector text is built from `quality` as it is. -/
def QueryByQuality (ctx : Ctx) (quality : String) : Except String (List RiceBatch) :=
  let query := "\x7b\"selector\":\x7b\"qualityGrade\":\"" ++ quality ++ "\"\x7d\x7d"
  match GetQueryResult ctx query with
  | .error err => .error err
  | .ok results => .ok (results.map fun result => (unmarshalBatch result.2).1)

/-- The batch the application adds: "BATCH101" of "Kuttanad", grade "GradeA". -/
def batch101 : RiceBatch :=
  { BatchID := "BATCH101", Farmer := "farmer1", HarvestDate := "2025-07-01", Quantity := 100,
    Location := "Kuttanad", QualityGrade := "GradeA", CurrentHolder := "Farmer" }

/-- An empty rice ledger with a working store, called by "farmer1". -/
def emptyCtx : Ctx :=
  { clientID := .ok "farmer1", transient := .ok [], world := [], priv := [] }

end Rice

namespace Contracts

open Fabric

/-- A ledger holding cars under "V1", "V2" and "V3" and a value that is not a
car under "V0". -/
def ctxRange : Ctx :=
  { emptyCtx "Org2MSP" with
    world := [("V3", marshalCar carRegistered), ("V1", marshalCar carV1),
              ("V2", marshalCar { carV1 with CarId := "V2" }), ("V0", .junk "x")] }

end Contracts

namespace Contracts

open Fabric

/-- The zeroed car with only its id set that `GetCarHistory` reports for an
entry without a value: `Car{CarId: carID}`. -/
def tombstoneCar (carID : String) : Car :=
  { AssetType := "", CarId := carID, Color := "", DateOfManufacture := "", Make := "",
    Model := "", OwnedBy := "", Status := "" }

/-- The record `GetCarHistory` builds for a history entry that decodes. -/
def recordOf (carID : String) (e : KeyModification) : HistoryQueryResult :=
  { Record := if emptyValue e.Value then tombstoneCar carID
              else ((e.Value.bind unmarshalCar).getD (tombstoneCar carID)),
    TxId := e.TxId, Timestamp := formatRFC1123 e.Timestamp, IsDelete := e.IsDelete }

/-- A history entry as the car contract produces it: a deletion without a
value, or the write of a marshalled car. -/
def CarEntry (e : KeyModification) : Prop :=
  (e.IsDelete = true ∧ e.Value = none) ∨
    (e.IsDelete = false ∧ ∃ car : Car, e.Value = some (marshalCar car))

/-- The value of the most recent history entry of `key`. -/
def lastValue (key : String) (history : List KeyModification) : Option Bytes :=
  match (history.filter (fun e => e.Key = key)).getLast? with
  | none => none
  | some e => e.Value

/-- What holds of every reachable ledger: the history holds only entries of the
car contract, the public state of each key is the value of its most recent
history entry, and every stored value is a car of type "car" stored under its
own id. -/
structure LedgerInv (ctx : Ctx) : Prop where
  entries : ∀ e ∈ ctx.history, CarEntry e
  latest : ∀ key, kvGet key ctx.world = lastValue key ctx.history
  cars : ∀ key bytes, kvGet key ctx.world = some bytes →
    ∃ car : Car, bytes = marshalCar car ∧ car.AssetType = "car" ∧ car.CarId = key

/-- What one call can do to the public state and the history: nothing, the
write of a car under a key (a new car of that id, or the car read from that key
with its type and id kept), or the deletion of a key. -/
inductive Effect (ctx : Ctx) : Ctx → Prop where
  | same (next : Ctx) (hworld : next.world = ctx.world)
      (hhistory : next.history = ctx.history) : Effect ctx next
  | put (next : Ctx) (key : String) (car : Car) (tx : String) (ts : Nat)
      (hworld : next.world = kvPut key (marshalCar car) ctx.world)
      (hhistory : next.history = ctx.history ++ [⟨key, tx, some (marshalCar car), ts, false⟩])
      (hcar : (car.AssetType = "car" ∧ car.CarId = key) ∨
        ∃ old : Car, ReadCar ctx key = .ok old ∧ car.AssetType = old.AssetType ∧
          car.CarId = old.CarId) : Effect ctx next
  | del (next : Ctx) (key : String) (tx : String) (ts : Nat)
      (hworld : next.world = kvDel key ctx.world)
      (hhistory : next.history = ctx.history ++ [⟨key, tx, none, ts, true⟩]) : Effect ctx next

end Contracts

namespace Contracts

open Fabric

/-- The empty ledger after the factory created "V1". -/
def ctxCreated : Ctx :=
  (CreateCar (emptyCtx "Org1MSP") "V1" "Toyota" "Corolla" "Red" "FactoryCo" "2024-01-01").2

/-- The transaction "tx1" that follows the creation of "V1". -/
def ctxNextTx : Ctx :=
  { ctxCreated with txID := "tx1", txTimestamp := 1700000000 }

/-- The ledger after "V1" was created and then deleted. -/
def ctxDeleted : Ctx := (DeleteCar ctxNextTx "V1").2

end Contracts

namespace Rice

/-- A location that closes the string of the selector and adds a second field. -/
def craftedLocation : String := "Kuttanad\",\"qualityGrade\":\"GradeA"

/-- A batch whose location is `craftedLocation`. -/
def batch102 : RiceBatch := { batch101 with BatchID := "BATCH102", Location := craftedLocation }

/-- A batch whose location holds a double quote. -/
def batch103 : RiceBatch := { batch101 with BatchID := "BATCH103", Location := "a\"b" }

/-- A rice ledger holding the three batches. -/
def ctxBatches : Ctx :=
  { emptyCtx with
    world := [("BATCH101", marshalBatch batch101), ("BATCH102", marshalBatch batch102),
              ("BATCH103", marshalBatch batch103)] }

/-- A rice ledger whose value under "B1" is not JSON and whose value under "B2"
has a string where the quantity should be. -/
def ctxMalformed : Ctx :=
  { emptyCtx with
    world := [("B1", .junk "not json"),
              ("B2", .obj [("batchID", .str "B2"), ("quantity", .str "many"),
                           ("currentHolder", .str "Farmer")])] }

/-- The transient map of the application: price 45.0 (as its IEEE 754 bits) and
the note "Premium Quality". -/
def ctxTransient : Ctx :=
  { emptyCtx with
    world := [("BATCH101", marshalBatch batch101)]
    transient := .ok [("privateDetails",
      .obj [("gradeNote", .str "Premium Quality"), ("pricePerKg", .num ⟨4631530004285489152⟩)])] }

end Rice

namespace Contracts

open Fabric

/-- A ledger whose value under "V1" is not a car, called by the registrar. -/
def ctxJunkCar : Ctx :=
  { emptyCtx "Org3MSP" with world := [("V1", .junk "not json")] }

end Contracts

/-! ## The key-value namespace -/

namespace Fabric

theorem kvGet_kvDel_self (key : String) (st : Store) : kvGet key (kvDel key st) = none := by
  induction st with
  | nil => rfl
  | cons kv rest ih =>
    obtain ⟨k, v⟩ := kv
    by_cases h : k = key
    · simp [kvDel, h, ih]
    · simp [kvDel, kvGet, h, ih]

theorem kvGet_kvDel_ne (key other : String) (st : Store) (hne : other ≠ key) :
    kvGet other (kvDel key st) = kvGet other st := by
  have hne2 : ¬ key = other := fun e => hne e.symm
  induction st with
  | nil => rfl
  | cons kv rest ih =>
    obtain ⟨k, v⟩ := kv
    by_cases h : k = key
    · subst h
      simp [kvDel, kvGet, hne2, ih]
    · by_cases h2 : k = other
      · subst h2
        simp [kvDel, kvGet, hne]
      · simp [kvDel, kvGet, h, h2, ih]

theorem kvGet_kvPut_self (key : String) (value : Bytes) (st : Store) :
    kvGet key (kvPut key value st) = some value := by
  simp [kvPut, kvGet]

theorem kvGet_kvPut_ne (key other : String) (value : Bytes) (st : Store) (hne : other ≠ key) :
    kvGet other (kvPut key value st) = kvGet other st := by
  have h : ¬ key = other := fun e => hne e.symm
  simp [kvPut, kvGet, h, kvGet_kvDel_ne key other st hne]

end Fabric

namespace Contracts

open Fabric

theorem unmarshalCar_marshalCar (car : Car) : unmarshalCar (marshalCar car) = some car := by
  cases car
  simp [marshalCar, unmarshalCar, member]

end Contracts

/-! ## Reading back what the contract wrote -/

namespace Contracts

open Fabric

theorem ReadCar_ok_inv (ctx : Ctx) (carID : String) (car : Car)
    (h : ReadCar ctx carID = .ok car) :
    ctx.getStateErr carID = none ∧
      ∃ bytes, kvGet carID ctx.world = some bytes ∧ unmarshalCar bytes = some car := by
  unfold ReadCar GetState at h
  cases hg : ctx.getStateErr carID with
  | some e => simp [hg] at h
  | none =>
    refine ⟨rfl, ?_⟩
    cases hv : kvGet carID ctx.world with
    | none => simp [hg, hv] at h
    | some bytes =>
      cases hu : unmarshalCar bytes with
      | none => simp [hg, hv, hu] at h
      | some c =>
        simp [hg, hv, hu] at h
        exact ⟨bytes, rfl, by rw [hu, h]⟩

theorem ReadCar_of_stored (ctx : Ctx) (carID : String) (car : Car)
    (hg : ctx.getStateErr carID = none)
    (hv : kvGet carID ctx.world = some (marshalCar car)) :
    ReadCar ctx carID = .ok car := by
  simp [ReadCar, GetState, hg, hv, unmarshalCar_marshalCar]

theorem CarExists_of_ReadCar (ctx : Ctx) (carID : String) (car : Car)
    (h : ReadCar ctx carID = .ok car) : CarExists ctx carID = .ok true := by
  obtain ⟨hg, bytes, hv, _⟩ := ReadCar_ok_inv ctx carID car h
  simp [CarExists, GetState, hg, hv]

theorem MatchOrder_match_eq (ctx : Ctx) (carID orderID : String) (car : Car) (order : Order)
    (hord : ReadPrivateState ctx orderID = .ok order)
    (hcar : ReadCar ctx carID = .ok car)
    (hmk : car.Make = order.Make) (hmd : car.Model = order.Model)
    (hcl : car.Color = order.Color)
    (hdel : ctx.delPrivateDataErr orderID = none)
    (hput : ctx.putStateErr carID = none) :
    MatchOrder ctx carID orderID =
      (.ok ("Deleted order " ++ orderID ++ " and Assigned " ++ car.CarId ++ " to " ++
        order.DealerName), matchedCtx ctx carID orderID car order) := by
  simp [MatchOrder, hord, hcar, hmk, hmd, hcl, DelPrivateData, hdel, PutState, hput, matchedCtx]

theorem ReadCar_matchedCtx (ctx : Ctx) (carID orderID : String) (car : Car) (order : Order)
    (hcar : ReadCar ctx carID = .ok car) :
    ReadCar (matchedCtx ctx carID orderID car order) carID =
      .ok { car with OwnedBy := order.DealerName, Status := "assigned to a dealer" } := by
  obtain ⟨hg, _⟩ := ReadCar_ok_inv ctx carID car hcar
  exact ReadCar_of_stored _ _ _ hg (kvGet_kvPut_self _ _ _)

end Contracts

/-! ## The claims -/

namespace Contracts

open Fabric

/-- C1: when the car and the order are both read successfully and the car
differs from the order in make, model or color, `MatchOrder` fails with
"order is not matching" and returns the context it was given, so the value
stored under the car id in the public state and the value stored under the
order id in the restricted collection are those of before the call. -/
theorem MatchOrder_mismatch_unchanged (ctx : Ctx) (carID orderID : String) (car : Car)
    (order : Order)
    (hord : ReadPrivateState ctx orderID = .ok order)
    (hcar : ReadCar ctx carID = .ok car)
    (hne : car.Make ≠ order.Make ∨ car.Model ≠ order.Model ∨ car.Color ≠ order.Color) :
    MatchOrder ctx carID orderID = (.error "order is not matching", ctx) ∧
      kvGet carID (MatchOrder ctx carID orderID).2.world = kvGet carID ctx.world ∧
      kvGet orderID (MatchOrder ctx carID orderID).2.priv = kvGet orderID ctx.priv := by
  have hcond : ¬ (car.Make = order.Make ∧ car.Color = order.Color ∧ car.Model = order.Model) := by
    rintro ⟨h1, h2, h3⟩
    rcases hne with h | h | h
    · exact h h1
    · exact h h3
    · exact h h2
  have hres : MatchOrder ctx carID orderID = (.error "order is not matching", ctx) := by
    simp only [MatchOrder, hord, hcar]
    rw [if_neg hcond]
  exact ⟨hres, by rw [hres], by rw [hres]⟩

/-- Witness for C1: scenario 3, a blue order against the red car "V1". -/
theorem MatchOrder_mismatch_unchanged_witness :
    ReadPrivateState (ctxWith "Org2MSP" carV1 orderBlue) "O1" = .ok orderBlue ∧
    ReadCar (ctxWith "Org2MSP" carV1 orderBlue) "V1" = .ok carV1 ∧
    carV1.Color ≠ orderBlue.Color ∧
    (MatchOrder (ctxWith "Org2MSP" carV1 orderBlue) "V1" "O1").1 =
      .error "order is not matching" ∧
    kvGet "V1" (MatchOrder (ctxWith "Org2MSP" carV1 orderBlue) "V1" "O1").2.world =
      some (marshalCar carV1) ∧
    kvGet "O1" (MatchOrder (ctxWith "Org2MSP" carV1 orderBlue) "V1" "O1").2.priv =
      some (marshalOrder orderBlue) := by
  have hord : ReadPrivateState (ctxWith "Org2MSP" carV1 orderBlue) "O1" = .ok orderBlue := rfl
  have hcar : ReadCar (ctxWith "Org2MSP" carV1 orderBlue) "V1" = .ok carV1 := rfl
  have hcol : carV1.Color ≠ orderBlue.Color := by decide
  have h := MatchOrder_mismatch_unchanged (ctxWith "Org2MSP" carV1 orderBlue) "V1" "O1"
    carV1 orderBlue hord hcar (Or.inr (Or.inr hcol))
  refine ⟨hord, hcar, hcol, by rw [h.1], ?_, ?_⟩
  · rw [h.2.1]; decide
  · rw [h.2.2]; decide

/-- C2: when the car and the order are both read successfully, agree in make,
model and color, and the two writes go through, `MatchOrder` succeeds; reading
the car afterwards gives the same car with `OwnedBy` set to the order's
`DealerName` and `Status` set to "assigned to a dealer" (all other fields as
before), and the order is no longer in the restricted collection. -/
theorem MatchOrder_match_assigns (ctx : Ctx) (carID orderID : String) (car : Car)
    (order : Order)
    (hord : ReadPrivateState ctx orderID = .ok order)
    (hcar : ReadCar ctx carID = .ok car)
    (hmk : car.Make = order.Make) (hmd : car.Model = order.Model)
    (hcl : car.Color = order.Color)
    (hdel : ctx.delPrivateDataErr orderID = none)
    (hput : ctx.putStateErr carID = none) :
    (MatchOrder ctx carID orderID).1 =
        .ok ("Deleted order " ++ orderID ++ " and Assigned " ++ car.CarId ++ " to " ++
          order.DealerName) ∧
      ReadCar (MatchOrder ctx carID orderID).2 carID =
        .ok { AssetType := car.AssetType, CarId := car.CarId, Color := car.Color,
              DateOfManufacture := car.DateOfManufacture, Make := car.Make,
              Model := car.Model, OwnedBy := order.DealerName,
              Status := "assigned to a dealer" } ∧
      GetPrivateData (MatchOrder ctx carID orderID).2 orderID = .ok none ∧
      ReadPrivateState (MatchOrder ctx carID orderID).2 orderID =
        .error ("the order " ++ orderID ++ " does not exist") := by
  have hres := MatchOrder_match_eq ctx carID orderID car order hord hcar hmk hmd hcl hdel hput
  have hgp : ctx.getPrivateDataErr orderID = none := by
    cases hg : ctx.getPrivateDataErr orderID with
    | none => rfl
    | some e => simp [ReadPrivateState, GetPrivateData, hg] at hord
  have hpriv : GetPrivateData (matchedCtx ctx carID orderID car order) orderID = .ok none := by
    simp [GetPrivateData, matchedCtx, hgp, kvGet_kvDel_self]
  rw [hres]
  refine ⟨rfl, ReadCar_matchedCtx ctx carID orderID car order hcar, hpriv, ?_⟩
  simp only [ReadPrivateState, hpriv]

/-- Witness for C2: scenario 2, the order "O1" of "Dealer9" against the car "V1". -/
theorem MatchOrder_match_assigns_witness :
    ReadPrivateState (ctxWith "Org2MSP" carV1 orderO1) "O1" = .ok orderO1 ∧
    ReadCar (ctxWith "Org2MSP" carV1 orderO1) "V1" = .ok carV1 ∧
    (MatchOrder (ctxWith "Org2MSP" carV1 orderO1) "V1" "O1").1 =
      .ok "Deleted order O1 and Assigned V1 to Dealer9" ∧
    ReadCar (MatchOrder (ctxWith "Org2MSP" carV1 orderO1) "V1" "O1").2 "V1" =
      .ok { carV1 with OwnedBy := "Dealer9", Status := "assigned to a dealer" } ∧
    GetPrivateData (MatchOrder (ctxWith "Org2MSP" carV1 orderO1) "V1" "O1").2 "O1" =
      .ok none := by
  have hord : ReadPrivateState (ctxWith "Org2MSP" carV1 orderO1) "O1" = .ok orderO1 := rfl
  have hcar : ReadCar (ctxWith "Org2MSP" carV1 orderO1) "V1" = .ok carV1 := rfl
  have h := MatchOrder_match_assigns (ctxWith "Org2MSP" carV1 orderO1) "V1" "O1"
    carV1 orderO1 hord hcar rfl rfl rfl rfl rfl
  exact ⟨hord, hcar, h.1, h.2.1, h.2.2.1⟩

/-- C3: a caller whose organisation is not exactly "Org1MSP" gets an error from
`CreateCar` and from `DeleteCar`, and one whose organisation is not exactly
"Org3MSP" gets an error from `RegisterCar`, whether or not the key is stored;
each call returns the context it was given, so the public state and the
restricted collection are unchanged. -/
theorem unauthorized_no_change (ctx : Ctx) (org carID make model color manufacturerName
    dateOfManufacture ownerName registrationNumber : String)
    (hmsp : GetMSPID ctx = .ok org) :
    (org ≠ "Org1MSP" →
      (∃ msg, CreateCar ctx carID make model color manufacturerName dateOfManufacture =
          (.error msg, ctx)) ∧
      (CreateCar ctx carID make model color manufacturerName dateOfManufacture).2.world =
          ctx.world ∧
      (CreateCar ctx carID make model color manufacturerName dateOfManufacture).2.priv =
          ctx.priv ∧
      (∃ msg, DeleteCar ctx carID = (.error msg, ctx)) ∧
      (DeleteCar ctx carID).2.world = ctx.world ∧
      (DeleteCar ctx carID).2.priv = ctx.priv) ∧
    (org ≠ "Org3MSP" →
      (∃ msg, RegisterCar ctx carID ownerName registrationNumber = (.error msg, ctx)) ∧
      (RegisterCar ctx carID ownerName registrationNumber).2.world = ctx.world ∧
      (RegisterCar ctx carID ownerName registrationNumber).2.priv = ctx.priv) := by
  constructor
  · intro h1
    have hc : CreateCar ctx carID make model color manufacturerName dateOfManufacture =
        (.error ("user under following MSPID: " ++ org ++ " can't perform this action"),
          ctx) := by
      simp [CreateCar, hmsp, h1]
    have hd : DeleteCar ctx carID =
        (.error ("User under following MSP:" ++ org ++ " cannot able to perform this action"),
          ctx) := by
      simp [DeleteCar, hmsp, h1]
    rw [hc, hd]
    exact ⟨⟨_, rfl⟩, rfl, rfl, ⟨_, rfl⟩, rfl, rfl⟩
  · intro h3
    have hr : RegisterCar ctx carID ownerName registrationNumber =
        (.error ("User under following MSPID: " ++ org ++
          " cannot able to perform this action"), ctx) := by
      simp [RegisterCar, hmsp, h3]
    rw [hr]
    exact ⟨⟨_, rfl⟩, rfl, rfl⟩

/-- Witness for C3: the caller "org1msp" (lower case) on a ledger holding "V1". -/
theorem unauthorized_no_change_witness :
    GetMSPID (ctxWith "org1msp" carV1 orderO1) = .ok "org1msp" ∧
    (CreateCar (ctxWith "org1msp" carV1 orderO1) "V2" "Toyota" "Corolla" "Red" "FactoryCo"
        "2024-01-01").2.world = [("V1", marshalCar carV1)] ∧
    (DeleteCar (ctxWith "org1msp" carV1 orderO1) "V1").2.world = [("V1", marshalCar carV1)] ∧
    (RegisterCar (ctxWith "org1msp" carV1 orderO1) "V1" "Alice" "KL-01").2.world =
        [("V1", marshalCar carV1)] := by
  have h1 := unauthorized_no_change (ctxWith "org1msp" carV1 orderO1) "org1msp" "V2" "Toyota"
    "Corolla" "Red" "FactoryCo" "2024-01-01" "Alice" "KL-01" rfl
  have h2 := unauthorized_no_change (ctxWith "org1msp" carV1 orderO1) "org1msp" "V1" "Toyota"
    "Corolla" "Red" "FactoryCo" "2024-01-01" "Alice" "KL-01" rfl
  exact ⟨rfl, (h1.1 (by decide)).2.1, (h2.1 (by decide)).2.2.2.2.1, (h2.2 (by decide)).2.1⟩

/-- C4: for a caller of organisation "Org1MSP", a key that reads as absent and a
write that goes through, `CreateCar` succeeds; afterwards `CarExists` is true
and `ReadCar` returns the car with assetType "car", the given id, make, model,
color and date of manufacture, the manufacturer as owner and the status
"In Factory". -/
theorem CreateCar_then_ReadCar (ctx : Ctx) (carID make model color manufacturerName
    dateOfManufacture : String)
    (hmsp : GetMSPID ctx = .ok "Org1MSP")
    (habsent : GetState ctx carID = .ok none)
    (hput : ctx.putStateErr carID = none) :
    (CreateCar ctx carID make model color manufacturerName dateOfManufacture).1 =
        .ok ("successfully added car " ++ carID) ∧
      CarExists (CreateCar ctx carID make model color manufacturerName dateOfManufacture).2
        carID = .ok true ∧
      ReadCar (CreateCar ctx carID make model color manufacturerName dateOfManufacture).2
        carID =
        .ok { AssetType := "car", CarId := carID, Color := color,
              DateOfManufacture := dateOfManufacture, Make := make, Model := model,
              OwnedBy := manufacturerName, Status := "In Factory" } := by
  have hg : ctx.getStateErr carID = none := by
    cases hg : ctx.getStateErr carID with
    | none => rfl
    | some e => simp [GetState, hg] at habsent
  have hres : CreateCar ctx carID make model color manufacturerName dateOfManufacture =
      (.ok ("successfully added car " ++ carID),
        { ctx with
          world := kvPut carID (marshalCar
            { AssetType := "car", CarId := carID, Color := color,
              DateOfManufacture := dateOfManufacture, Make := make, Model := model,
              OwnedBy := manufacturerName, Status := "In Factory" }) ctx.world
          history := ctx.history ++ [⟨carID, ctx.txID, some (marshalCar
            { AssetType := "car", CarId := carID, Color := color,
              DateOfManufacture := dateOfManufacture, Make := make, Model := model,
              OwnedBy := manufacturerName, Status := "In Factory" }), ctx.txTimestamp,
              false⟩] }) := by
    simp [CreateCar, hmsp, CarExists, habsent, PutState, hput]
  rw [hres]
  have hread := ReadCar_of_stored
    { ctx with
      world := kvPut carID (marshalCar
        { AssetType := "car", CarId := carID, Color := color,
          DateOfManufacture := dateOfManufacture, Make := make, Model := model,
          OwnedBy := manufacturerName, Status := "In Factory" }) ctx.world
      history := ctx.history ++ [⟨carID, ctx.txID, some (marshalCar
        { AssetType := "car", CarId := carID, Color := color,
          DateOfManufacture := dateOfManufacture, Make := make, Model := model,
          OwnedBy := manufacturerName, Status := "In Factory" }), ctx.txTimestamp,
          false⟩] } carID _ hg (kvGet_kvPut_self _ _ _)
  exact ⟨rfl, CarExists_of_ReadCar _ _ _ hread, hread⟩

/-- Witness for C4: scenario 1, creating "V1" on the empty ledger. -/
theorem CreateCar_then_ReadCar_witness :
    GetMSPID (emptyCtx "Org1MSP") = .ok "Org1MSP" ∧
    GetState (emptyCtx "Org1MSP") "V1" = .ok none ∧
    (CreateCar (emptyCtx "Org1MSP") "V1" "Toyota" "Corolla" "Red" "FactoryCo"
        "2024-01-01").1 = .ok "successfully added car V1" ∧
    ReadCar (CreateCar (emptyCtx "Org1MSP") "V1" "Toyota" "Corolla" "Red" "FactoryCo"
        "2024-01-01").2 "V1" = .ok carV1 := by
  have h := CreateCar_then_ReadCar (emptyCtx "Org1MSP") "V1" "Toyota" "Corolla" "Red"
    "FactoryCo" "2024-01-01" rfl rfl rfl
  exact ⟨rfl, rfl, h.1, h.2.2⟩

/-- C5: for a caller of organisation "Org1MSP" and a key that is already stored,
`CreateCar` fails with "the car, <id> already exists" whatever the other
arguments, and returns the context it was given, so no key changes; and after
a successful `CreateCar` the same call on the resulting ledger fails with that
error. -/
theorem CreateCar_existing_rejected (ctx : Ctx) (carID make model color manufacturerName
    dateOfManufacture : String) :
    (GetMSPID ctx = .ok "Org1MSP" → CarExists ctx carID = .ok true →
      CreateCar ctx carID make model color manufacturerName dateOfManufacture =
        (.error ("the car, " ++ carID ++ " already exists"), ctx)) ∧
    (∀ msg, (CreateCar ctx carID make model color manufacturerName dateOfManufacture).1 =
        .ok msg →
      CreateCar (CreateCar ctx carID make model color manufacturerName dateOfManufacture).2
          carID make model color manufacturerName dateOfManufacture =
        (.error ("the car, " ++ carID ++ " already exists"),
          (CreateCar ctx carID make model color manufacturerName dateOfManufacture).2)) := by
  have first : ∀ c : Ctx, GetMSPID c = .ok "Org1MSP" → CarExists c carID = .ok true →
      CreateCar c carID make model color manufacturerName dateOfManufacture =
        (.error ("the car, " ++ carID ++ " already exists"), c) := by
    intro c hmsp hex
    simp [CreateCar, hmsp, hex]
  refine ⟨first ctx, ?_⟩
  intro msg hok
  cases hm : GetMSPID ctx with
  | error e => simp [CreateCar, hm] at hok
  | ok org =>
    by_cases horg : org = "Org1MSP"
    · subst horg
      cases hex : CarExists ctx carID with
      | error e => simp [CreateCar, hm, hex] at hok
      | ok b =>
        cases b with
        | true => simp [CreateCar, hm, hex] at hok
        | false =>
          have hg : ctx.getStateErr carID = none := by
            cases hg : ctx.getStateErr carID with
            | none => rfl
            | some e => simp [CarExists, GetState, hg] at hex
          cases hp : ctx.putStateErr carID with
          | some e => simp [CreateCar, hm, hex, PutState, hp] at hok
          | none =>
            have hres : CreateCar ctx carID make model color manufacturerName
                dateOfManufacture =
                (.ok ("successfully added car " ++ carID),
                  { ctx with
                    world := kvPut carID (marshalCar
                      { AssetType := "car", CarId := carID, Color := color,
                        DateOfManufacture := dateOfManufacture, Make := make, Model := model,
                        OwnedBy := manufacturerName, Status := "In Factory" }) ctx.world
                    history := ctx.history ++ [⟨carID, ctx.txID, some (marshalCar
                      { AssetType := "car", CarId := carID, Color := color,
                        DateOfManufacture := dateOfManufacture, Make := make, Model := model,
                        OwnedBy := manufacturerName, Status := "In Factory" }),
                        ctx.txTimestamp, false⟩] }) := by
              simp [CreateCar, hm, hex, PutState, hp]
            rw [hres]
            apply first
            · exact hm
            · simp [CarExists, GetState, hg, kvGet_kvPut_self]
    · simp [CreateCar, hm, horg] at hok

/-- Witness for C5: scenario 1, a second identical `CreateCar` for "V1". -/
theorem CreateCar_existing_rejected_witness :
    GetMSPID (ctxWith "Org1MSP" carV1 orderO1) = .ok "Org1MSP" ∧
    CarExists (ctxWith "Org1MSP" carV1 orderO1) "V1" = .ok true ∧
    CreateCar (ctxWith "Org1MSP" carV1 orderO1) "V1" "Honda" "Civic" "Blue" "Other" "2025" =
      (.error "the car, V1 already exists", ctxWith "Org1MSP" carV1 orderO1) ∧
    (CreateCar (emptyCtx "Org1MSP") "V1" "Toyota" "Corolla" "Red" "FactoryCo"
        "2024-01-01").1 = .ok "successfully added car V1" ∧
    (CreateCar (CreateCar (emptyCtx "Org1MSP") "V1" "Toyota" "Corolla" "Red" "FactoryCo"
        "2024-01-01").2 "V1" "Toyota" "Corolla" "Red" "FactoryCo" "2024-01-01").1 =
      .error "the car, V1 already exists" := by
  have h1 := (CreateCar_existing_rejected (ctxWith "Org1MSP" carV1 orderO1) "V1" "Honda"
    "Civic" "Blue" "Other" "2025").1 rfl rfl
  have h2 := (CreateCar_existing_rejected (emptyCtx "Org1MSP") "V1" "Toyota" "Corolla" "Red"
    "FactoryCo" "2024-01-01").2 "successfully added car V1" rfl
  exact ⟨rfl, rfl, h1, rfl, by rw [h2]; rfl⟩

/-- C6 as stated fails: the car "V1" is Registered (to "Alice"), the order "O1"
agrees with it in make, model and color, and `MatchOrder` succeeds, changes
the status to "assigned to a dealer" and the owner to "Dealer9", and removes
the order. -/
theorem MatchOrder_registered_counterexample :
    ReadCar (ctxWith "Org2MSP" carRegistered orderO1) "V1" = .ok carRegistered ∧
    carRegistered.Status = "Registered to Alice with plate number KL-01" ∧
    ReadPrivateState (ctxWith "Org2MSP" carRegistered orderO1) "O1" = .ok orderO1 ∧
    carRegistered.Make = orderO1.Make ∧ carRegistered.Model = orderO1.Model ∧
    carRegistered.Color = orderO1.Color ∧
    (MatchOrder (ctxWith "Org2MSP" carRegistered orderO1) "V1" "O1").1 =
      .ok "Deleted order O1 and Assigned V1 to Dealer9" ∧
    ReadCar (MatchOrder (ctxWith "Org2MSP" carRegistered orderO1) "V1" "O1").2 "V1" =
      .ok { carRegistered with OwnedBy := "Dealer9", Status := "assigned to a dealer" } ∧
    "assigned to a dealer" ≠ carRegistered.Status ∧
    "Dealer9" ≠ carRegistered.OwnedBy ∧
    GetPrivateData (ctxWith "Org2MSP" carRegistered orderO1) "O1" =
      .ok (some (marshalOrder orderO1)) ∧
    GetPrivateData (MatchOrder (ctxWith "Org2MSP" carRegistered orderO1) "V1" "O1").2 "O1" =
      .ok none := by
  refine ⟨rfl, rfl, rfl, rfl, rfl, rfl, rfl, rfl, by decide, by decide, rfl, rfl⟩

/-- C6 amended: `MatchOrder` does not look at the status.  For a car whose
status is the Registered one ("Registered to <owner> with plate number
<plate>"), an order equal to it in make, model and color and writes that go
through, `MatchOrder` succeeds, sets the status to "assigned to a dealer" and
the owner to the order's dealer, and removes the order from the restricted
collection. -/
theorem MatchOrder_ignores_status (ctx : Ctx) (carID orderID ownerName plate : String)
    (car : Car) (order : Order)
    (hord : ReadPrivateState ctx orderID = .ok order)
    (hcar : ReadCar ctx carID = .ok car)
    (_hreg : car.Status = "Registered to " ++ ownerName ++ " with plate number " ++ plate)
    (hmk : car.Make = order.Make) (hmd : car.Model = order.Model)
    (hcl : car.Color = order.Color)
    (hdel : ctx.delPrivateDataErr orderID = none)
    (hput : ctx.putStateErr carID = none) :
    (∃ msg, (MatchOrder ctx carID orderID).1 = .ok msg) ∧
      (∃ car1, ReadCar (MatchOrder ctx carID orderID).2 carID = .ok car1 ∧
        car1.Status = "assigned to a dealer" ∧ car1.OwnedBy = order.DealerName) ∧
      kvGet orderID (MatchOrder ctx carID orderID).2.priv = none := by
  rw [MatchOrder_match_eq ctx carID orderID car order hord hcar hmk hmd hcl hdel hput]
  refine ⟨⟨_, rfl⟩, ⟨_, ReadCar_matchedCtx ctx carID orderID car order hcar, rfl, rfl⟩, ?_⟩
  simp [matchedCtx, kvGet_kvDel_self]

/-- Witness for C6 amended: the Registered car "V1" and the order "O1". -/
theorem MatchOrder_ignores_status_witness :
    ReadPrivateState (ctxWith "Org2MSP" carRegistered orderO1) "O1" = .ok orderO1 ∧
    ReadCar (ctxWith "Org2MSP" carRegistered orderO1) "V1" = .ok carRegistered ∧
    carRegistered.Status = "Registered to " ++ "Alice" ++ " with plate number " ++ "KL-01" ∧
    (∃ car1, ReadCar (MatchOrder (ctxWith "Org2MSP" carRegistered orderO1) "V1" "O1").2 "V1" =
        .ok car1 ∧ car1.Status = "assigned to a dealer" ∧ car1.OwnedBy = orderO1.DealerName) ∧
    kvGet "O1" (MatchOrder (ctxWith "Org2MSP" carRegistered orderO1) "V1" "O1").2.priv =
      none := by
  have h := MatchOrder_ignores_status (ctxWith "Org2MSP" carRegistered orderO1) "V1" "O1"
    "Alice" "KL-01" carRegistered orderO1 rfl rfl rfl rfl rfl rfl rfl rfl
  exact ⟨rfl, rfl, rfl, h.2.1, h.2.2⟩

/-- C7 fails on the code.  When the restricted collection refuses the deletion,
`MatchOrder` discards that error and reports success ("Deleted order O1 ...")
while the order is still stored; when the public-state write fails after the
deletion went through, `MatchOrder` returns the error with the order already
removed and the car unchanged. -/
theorem MatchOrder_partial_write :
    ((MatchOrder ctxDelFails "V1" "O1").1 = .ok "Deleted order O1 and Assigned V1 to Dealer9" ∧
      GetPrivateData (MatchOrder ctxDelFails "V1" "O1").2 "O1" =
        .ok (some (marshalOrder orderO1)) ∧
      ReadCar (MatchOrder ctxDelFails "V1" "O1").2 "V1" =
        .ok { carV1 with OwnedBy := "Dealer9", Status := "assigned to a dealer" }) ∧
    ((MatchOrder ctxPutFails "V1" "O1").1 = .error "state database unavailable" ∧
      GetPrivateData ctxPutFails "O1" = .ok (some (marshalOrder orderO1)) ∧
      GetPrivateData (MatchOrder ctxPutFails "V1" "O1").2 "O1" = .ok none ∧
      ReadCar (MatchOrder ctxPutFails "V1" "O1").2 "V1" = .ok carV1) := by
  exact ⟨⟨rfl, rfl, rfl⟩, ⟨rfl, rfl, rfl, rfl⟩⟩

/-- C8: for a caller of organisation "Org3MSP", a stored car that parses,
whatever its status, and a write that goes through, `RegisterCar` succeeds;
reading the car afterwards gives the same car with `OwnedBy` set to the owner
name and `Status` set to "Registered to <ownerName> with plate number
<registrationNumber>" (all other fields as before).  When the key reads as
absent it fails with "Car <id> does not exist!" and returns the context it was
given. -/
theorem RegisterCar_permissive (ctx : Ctx) (carID ownerName registrationNumber : String)
    (hmsp : GetMSPID ctx = .ok "Org3MSP") :
    (∀ car, ReadCar ctx carID = .ok car → ctx.putStateErr carID = none →
      (RegisterCar ctx carID ownerName registrationNumber).1 =
          .ok ("Car " ++ carID ++ " successfully registered to " ++ ownerName) ∧
        ReadCar (RegisterCar ctx carID ownerName registrationNumber).2 carID =
          .ok { AssetType := car.AssetType, CarId := car.CarId, Color := car.Color,
                DateOfManufacture := car.DateOfManufacture, Make := car.Make,
                Model := car.Model, OwnedBy := ownerName,
                Status := "Registered to " ++ ownerName ++ " with plate number " ++
                  registrationNumber }) ∧
    (GetState ctx carID = .ok none →
      RegisterCar ctx carID ownerName registrationNumber =
        (.error ("Car " ++ carID ++ " does not exist!"), ctx)) := by
  constructor
  · intro car hcar hput
    obtain ⟨hg, _⟩ := ReadCar_ok_inv ctx carID car hcar
    have hex := CarExists_of_ReadCar ctx carID car hcar
    have hres : RegisterCar ctx carID ownerName registrationNumber =
        (.ok ("Car " ++ carID ++ " successfully registered to " ++ ownerName),
          { ctx with
            world := kvPut carID (marshalCar
              { car with OwnedBy := ownerName,
                         Status := "Registered to " ++ ownerName ++ " with plate number " ++
                           registrationNumber }) ctx.world
            history := ctx.history ++ [⟨carID, ctx.txID, some (marshalCar
              { car with OwnedBy := ownerName,
                         Status := "Registered to " ++ ownerName ++ " with plate number " ++
                           registrationNumber }), ctx.txTimestamp, false⟩] }) := by
      simp [RegisterCar, hmsp, hex, hcar, PutState, hput]
    rw [hres]
    exact ⟨rfl, ReadCar_of_stored _ _ _ hg (kvGet_kvPut_self _ _ _)⟩
  · intro habsent
    simp [RegisterCar, hmsp, CarExists, habsent]

/-- Witness for C8: registering the factory car "V1" (never assigned to a
dealer) to "Alice", and registering the absent key "V2". -/
theorem RegisterCar_permissive_witness :
    GetMSPID (ctxWith "Org3MSP" carV1 orderO1) = .ok "Org3MSP" ∧
    ReadCar (ctxWith "Org3MSP" carV1 orderO1) "V1" = .ok carV1 ∧
    (RegisterCar (ctxWith "Org3MSP" carV1 orderO1) "V1" "Alice" "KL-01").1 =
      .ok "Car V1 successfully registered to Alice" ∧
    ReadCar (RegisterCar (ctxWith "Org3MSP" carV1 orderO1) "V1" "Alice" "KL-01").2 "V1" =
      .ok carRegistered ∧
    GetState (ctxWith "Org3MSP" carV1 orderO1) "V2" = .ok none ∧
    RegisterCar (ctxWith "Org3MSP" carV1 orderO1) "V2" "Alice" "KL-01" =
      (.error "Car V2 does not exist!", ctxWith "Org3MSP" carV1 orderO1) := by
  have h1 := (RegisterCar_permissive (ctxWith "Org3MSP" carV1 orderO1) "V1" "Alice" "KL-01"
    rfl).1 carV1 rfl rfl
  have h2 := (RegisterCar_permissive (ctxWith "Org3MSP" carV1 orderO1) "V2" "Alice" "KL-01"
    rfl).2 rfl
  exact ⟨rfl, rfl, h1.1, h1.2, rfl, h2⟩

/-- C9: for a caller of organisation "Org1MSP", a key that is stored (whatever
its value) and a deletion that goes through, `DeleteCar` succeeds; afterwards
`CarExists` is false, `ReadCar` fails with "the car <id> does not exist", every
other key of the public state reads as before and the restricted collection
is unchanged.  When the key is absent it fails with "The asset <id> does not
exist" and returns the context it was given. -/
theorem DeleteCar_removes (ctx : Ctx) (carID : String)
    (hmsp : GetMSPID ctx = .ok "Org1MSP") :
    (CarExists ctx carID = .ok true → ctx.delStateErr carID = none →
      (DeleteCar ctx carID).1 =
          .ok ("Car with id " ++ carID ++ " is deleted from the world state.") ∧
        CarExists (DeleteCar ctx carID).2 carID = .ok false ∧
        ReadCar (DeleteCar ctx carID).2 carID =
          .error ("the car " ++ carID ++ " does not exist") ∧
        (∀ other, other ≠ carID →
          GetState (DeleteCar ctx carID).2 other = GetState ctx other) ∧
        (DeleteCar ctx carID).2.priv = ctx.priv) ∧
    (CarExists ctx carID = .ok false →
      DeleteCar ctx carID = (.error ("The asset " ++ carID ++ " does not exist"), ctx)) := by
  constructor
  · intro hex hdel
    have hg : ctx.getStateErr carID = none := by
      cases hg : ctx.getStateErr carID with
      | none => rfl
      | some e => simp [CarExists, GetState, hg] at hex
    have hres : DeleteCar ctx carID =
        (.ok ("Car with id " ++ carID ++ " is deleted from the world state."),
          { ctx with
            world := kvDel carID ctx.world
            history := ctx.history ++ [⟨carID, ctx.txID, none, ctx.txTimestamp, true⟩] }) := by
      simp [DeleteCar, hmsp, hex, DelState, hdel]
    rw [hres]
    refine ⟨rfl, ?_, ?_, ?_, rfl⟩
    · simp [CarExists, GetState, hg, kvGet_kvDel_self]
    · simp [ReadCar, GetState, hg, kvGet_kvDel_self]
    · intro other hne
      simp [GetState, kvGet_kvDel_ne carID other ctx.world hne]
  · intro hex
    simp [DeleteCar, hmsp, hex]

/-- Witness for C9: deleting "V1" from a ledger that also holds "V0", and
deleting the absent key "V2". -/
theorem DeleteCar_removes_witness :
    GetMSPID ({ ctxWith "Org1MSP" carV1 orderO1 with
      world := [("V0", marshalCar carRegistered), ("V1", marshalCar carV1)] } : Ctx) =
      .ok "Org1MSP" ∧
    CarExists ({ ctxWith "Org1MSP" carV1 orderO1 with
      world := [("V0", marshalCar carRegistered), ("V1", marshalCar carV1)] } : Ctx) "V1" =
      .ok true ∧
    CarExists (DeleteCar ({ ctxWith "Org1MSP" carV1 orderO1 with
      world := [("V0", marshalCar carRegistered), ("V1", marshalCar carV1)] } : Ctx) "V1").2
      "V1" = .ok false ∧
    GetState (DeleteCar ({ ctxWith "Org1MSP" carV1 orderO1 with
      world := [("V0", marshalCar carRegistered), ("V1", marshalCar carV1)] } : Ctx) "V1").2
      "V0" = .ok (some (marshalCar carRegistered)) ∧
    CarExists (ctxWith "Org1MSP" carV1 orderO1) "V2" = .ok false ∧
    DeleteCar (ctxWith "Org1MSP" carV1 orderO1) "V2" =
      (.error "The asset V2 does not exist", ctxWith "Org1MSP" carV1 orderO1) := by
  have h1 := (DeleteCar_removes ({ ctxWith "Org1MSP" carV1 orderO1 with
      world := [("V0", marshalCar carRegistered), ("V1", marshalCar carV1)] } : Ctx) "V1"
    rfl).1 rfl rfl
  have h2 := (DeleteCar_removes (ctxWith "Org1MSP" carV1 orderO1) "V2" rfl).2 rfl
  refine ⟨rfl, rfl, h1.2.1, ?_, rfl, h2⟩
  rw [h1.2.2.2.1 "V0" (by decide)]
  rfl

/-- C10: for a caller whose organisation is not "Org1MSP", `CreateCar` and
`DeleteCar` return in any two ledgers (same caller, same arguments) the same
error, whose message has the caller's organisation inside it; likewise
`RegisterCar` for a caller whose organisation is not "Org3MSP". -/
theorem refusal_independent_of_ledger (ctx1 ctx2 : Ctx) (org carID make model color
    manufacturerName dateOfManufacture ownerName registrationNumber : String)
    (hmsp1 : GetMSPID ctx1 = .ok org) (hmsp2 : GetMSPID ctx2 = .ok org) :
    (org ≠ "Org1MSP" →
      (∃ before after,
        (CreateCar ctx1 carID make model color manufacturerName dateOfManufacture).1 =
          .error (before ++ org ++ after) ∧
        (CreateCar ctx2 carID make model color manufacturerName dateOfManufacture).1 =
          .error (before ++ org ++ after)) ∧
      (∃ before after,
        (DeleteCar ctx1 carID).1 = .error (before ++ org ++ after) ∧
        (DeleteCar ctx2 carID).1 = .error (before ++ org ++ after))) ∧
    (org ≠ "Org3MSP" →
      ∃ before after,
        (RegisterCar ctx1 carID ownerName registrationNumber).1 =
          .error (before ++ org ++ after) ∧
        (RegisterCar ctx2 carID ownerName registrationNumber).1 =
          .error (before ++ org ++ after)) := by
  constructor
  · intro h1
    refine ⟨⟨"user under following MSPID: ", " can't perform this action", ?_, ?_⟩,
      ⟨"User under following MSP:", " cannot able to perform this action", ?_, ?_⟩⟩
    · simp [CreateCar, hmsp1, h1]
    · simp [CreateCar, hmsp2, h1]
    · simp [DeleteCar, hmsp1, h1]
    · simp [DeleteCar, hmsp2, h1]
  · intro h3
    refine ⟨"User under following MSPID: ", " cannot able to perform this action", ?_, ?_⟩
    · simp [RegisterCar, hmsp1, h3]
    · simp [RegisterCar, hmsp2, h3]

/-- Witness for C10: the caller "Org2MSP" on a ledger holding "V1" and on the
empty ledger. -/
theorem refusal_independent_of_ledger_witness :
    GetMSPID (ctxWith "Org2MSP" carV1 orderO1) = .ok "Org2MSP" ∧
    GetMSPID (emptyCtx "Org2MSP") = .ok "Org2MSP" ∧
    CarExists (ctxWith "Org2MSP" carV1 orderO1) "V1" = .ok true ∧
    CarExists (emptyCtx "Org2MSP") "V1" = .ok false ∧
    (∃ before after,
      (DeleteCar (ctxWith "Org2MSP" carV1 orderO1) "V1").1 =
        .error (before ++ "Org2MSP" ++ after) ∧
      (DeleteCar (emptyCtx "Org2MSP") "V1").1 = .error (before ++ "Org2MSP" ++ after)) ∧
    (∃ before after,
      (RegisterCar (ctxWith "Org2MSP" carV1 orderO1) "V1" "Alice" "KL-01").1 =
        .error (before ++ "Org2MSP" ++ after) ∧
      (RegisterCar (emptyCtx "Org2MSP") "V1" "Alice" "KL-01").1 =
        .error (before ++ "Org2MSP" ++ after)) := by
  have h := refusal_independent_of_ledger (ctxWith "Org2MSP" carV1 orderO1)
    (emptyCtx "Org2MSP") "Org2MSP" "V1" "Toyota" "Corolla" "Red" "FactoryCo" "2024-01-01"
    "Alice" "KL-01" rfl rfl
  exact ⟨rfl, rfl, rfl, rfl, (h.1 (by decide)).2, h.2 (by decide)⟩

end Contracts

/-! ## Key order and range scans -/

namespace Fabric

theorem charsLt_iff_lex (a b : List Char) :
    charsLt a b = true ↔ List.Lex (fun x y : Char => x < y) a b := by
  induction a generalizing b with
  | nil =>
    cases b with
    | nil => simp [charsLt]
    | cons y ys => simp [charsLt, List.Lex.nil]
  | cons x xs ih =>
    cases b with
    | nil => simp [charsLt]
    | cons y ys =>
      simp only [charsLt]
      by_cases hxy : x < y
      · simp [hxy, List.Lex.rel]
      · by_cases hyx : y < x
        · have hne : x ≠ y := fun e => by subst e; exact hxy hyx
          simp only [hxy, hyx, if_true, if_false]
          constructor
          · intro h; cases h
          · intro h
            cases h with
            | cons h => exact absurd rfl hne
            | rel h => exact absurd h hxy
        · have heq : x = y := le_antisymm (not_lt.mp hyx) (not_lt.mp hxy)
          subst heq
          simp only [hxy, if_false, ih]
          constructor
          · intro h; exact List.Lex.cons h
          · intro h
            cases h with
            | cons h => exact h
            | rel h => exact absurd h hxy

theorem keyLt_iff_lt (a b : String) : keyLt a b = true ↔ a < b := by
  rw [String.lt_iff_toList_lt]
  exact charsLt_iff_lex a.data b.data

theorem mem_insertKey (key x : String) (l : List String) :
    x ∈ insertKey key l ↔ x = key ∨ x ∈ l := by
  induction l with
  | nil => simp [insertKey]
  | cons k rest ih =>
    simp only [insertKey]
    split
    · simp
    · split
      · rename_i h; subst h; simp
      · simp [ih]; tauto

theorem insertKey_sorted (key : String) (l : List String) (h : l.Pairwise (· < ·)) :
    (insertKey key l).Pairwise (· < ·) := by
  induction l with
  | nil => simp [insertKey]
  | cons k rest ih =>
    simp only [insertKey]
    rw [List.pairwise_cons] at h
    split
    · rename_i hlt
      have hlt2 : key < k := (keyLt_iff_lt key k).mp hlt
      rw [List.pairwise_cons]
      refine ⟨?_, List.pairwise_cons.mpr h⟩
      intro y hy
      rcases List.mem_cons.mp hy with e | hy
      · subst e; exact hlt2
      · exact lt_trans hlt2 (h.1 y hy)
    · split
      · exact List.pairwise_cons.mpr h
      · rename_i hnlt hne
        have hgt : k < key := by
          have h1 : ¬ key < k := fun e => hnlt ((keyLt_iff_lt key k).mpr e)
          exact lt_of_le_of_ne (not_lt.mp h1) (fun e => hne e.symm)
        rw [List.pairwise_cons]
        refine ⟨?_, ih h.2⟩
        intro y hy
        rcases (mem_insertKey key y rest).mp hy with e | hy
        · subst e; exact hgt
        · exact h.1 y hy

theorem sortedKeys_sorted {α : Type} (st : List (String × α)) :
    (sortedKeys st).Pairwise (· < ·) := by
  induction st with
  | nil => simp [sortedKeys]
  | cons kv rest ih =>
    obtain ⟨k, v⟩ := kv
    exact insertKey_sorted k _ ih

theorem mem_sortedKeys (st : Store) (k : String) :
    k ∈ sortedKeys st ↔ (kvGet k st).isSome = true := by
  induction st with
  | nil => simp [sortedKeys, kvGet]
  | cons kv rest ih =>
    obtain ⟨k0, v⟩ := kv
    simp only [sortedKeys, mem_insertKey, kvGet]
    by_cases h : k0 = k
    · subst h; simp
    · have h2 : ¬ k = k0 := fun e => h e.symm
      simp [h, h2, ih]

theorem inRange_iff (startKey endKey key : String) (he : endKey ≠ "") :
    inRange startKey endKey key = true ↔ startKey ≤ key ∧ key < endKey := by
  simp only [inRange, Bool.and_eq_true, Bool.not_eq_true', Bool.or_eq_true, beq_iff_eq]
  have h1 : keyLt key startKey = false ↔ startKey ≤ key := by
    rw [← not_lt, ← keyLt_iff_lt]; simp
  rw [h1, keyLt_iff_lt]
  simp [he]

theorem kvRange_spec (startKey endKey : String) (st : Store) (he : endKey ≠ "") :
    ∃ keys : List String, keys.Pairwise (· < ·) ∧
      (∀ k, k ∈ keys ↔ startKey ≤ k ∧ k < endKey ∧ (kvGet k st).isSome = true) ∧
      List.Forall₂ (fun k kv => kv.1 = k ∧ kvGet k st = some kv.2) keys
        (kvRange startKey endKey st) := by
  refine ⟨(sortedKeys st).filter (inRange startKey endKey), ?_, ?_, ?_⟩
  · exact (sortedKeys_sorted st).filter _
  · intro k
    rw [List.mem_filter, mem_sortedKeys, inRange_iff _ _ _ he]
    tauto
  · have hall : ∀ k ∈ sortedKeys st, (kvGet k st).isSome = true :=
      fun k hk => (mem_sortedKeys st k).mp hk
    unfold kvRange
    generalize sortedKeys st = ks at hall
    induction ks with
    | nil => simp
    | cons k rest ih =>
      have hk := hall k (List.mem_cons_self _ _)
      have hrest := ih (fun x hx => hall x (List.mem_cons_of_mem _ hx))
      obtain ⟨b, hb⟩ := Option.isSome_iff_exists.mp hk
      by_cases hin : inRange startKey endKey k = true
      · simp only [List.filter_cons, hin, if_true, List.filterMap_cons, hb, Option.map_some']
        exact List.Forall₂.cons ⟨rfl, hb⟩ hrest
      · simp only [List.filter_cons, hin, if_false, List.filterMap_cons]
        simpa using hrest

end Fabric

namespace Contracts

open Fabric

theorem carResultIteratorFunction_ok (results : List (String × Bytes))
    (h : ∀ kv ∈ results, ∃ car, unmarshalCar kv.2 = some car) :
    ∃ cars, carResultIteratorFunction results = .ok cars ∧
      List.Forall₂ (fun kv car => unmarshalCar kv.2 = some car) results cars := by
  induction results with
  | nil => exact ⟨[], rfl, List.Forall₂.nil⟩
  | cons kv rest ih =>
    obtain ⟨k, v⟩ := kv
    obtain ⟨car, hcar⟩ := h (k, v) (List.mem_cons_self _ _)
    obtain ⟨cars, hcars, hall⟩ := ih (fun x hx => h x (List.mem_cons_of_mem _ hx))
    refine ⟨car :: cars, ?_, List.Forall₂.cons hcar hall⟩
    simp only at hcar
    simp [carResultIteratorFunction, hcar, hcars]

theorem forall₂_trans_rel {α β γ : Type} {r : α → β → Prop} {s : β → γ → Prop}
    {t : α → γ → Prop} (hrst : ∀ a b c, r a b → s b c → t a c)
    {xs : List α} {ys : List β} {zs : List γ}
    (hxy : List.Forall₂ r xs ys) (hyz : List.Forall₂ s ys zs) : List.Forall₂ t xs zs := by
  induction hxy generalizing zs with
  | nil =>
    rw [List.forall₂_nil_left_iff.mp hyz]
    exact List.Forall₂.nil
  | cons hab _ ih =>
    obtain ⟨c, rest, hbc, hrest, hzs⟩ := List.forall₂_cons_left_iff.mp hyz
    rw [hzs]
    exact List.Forall₂.cons (hrst _ _ _ hab hbc) (ih hrest)

theorem forall₂_mem_right {α β : Type} {r : α → β → Prop} {xs : List α} {ys : List β}
    (hxy : List.Forall₂ r xs ys) : ∀ b ∈ ys, ∃ a ∈ xs, r a b := by
  induction hxy with
  | nil => intro b hb; cases hb
  | cons hab _ ih =>
    intro b hb
    rcases List.mem_cons.mp hb with e | hb
    · subst e; exact ⟨_, List.mem_cons_self _ _, hab⟩
    · obtain ⟨a, ha, hr⟩ := ih b hb
      exact ⟨a, List.mem_cons_of_mem _ ha, hr⟩

/-- C17: when the scan itself does not fail and the values stored in the
interval decode as cars, `GetCarsByRange(startKey, endKey)` with a non-empty
`endKey` returns the cars stored under exactly the keys `k` with
`startKey ≤ k < endKey`, one per key in strictly ascending key order, and the
empty list (no error) when no stored key lies in the interval. -/
theorem GetCarsByRange_scan (ctx : Ctx) (startKey endKey : String)
    (hend : endKey ≠ "")
    (hfault : ctx.getStateByRangeErr startKey endKey = none)
    (hcars : ∀ k b, startKey ≤ k → k < endKey → kvGet k ctx.world = some b →
      ∃ car, unmarshalCar b = some car) :
    ∃ (keys : List String) (cars : List Car),
      GetCarsByRange ctx startKey endKey = .ok cars ∧
      keys.Pairwise (· < ·) ∧
      (∀ k, k ∈ keys ↔ startKey ≤ k ∧ k < endKey ∧ (kvGet k ctx.world).isSome = true) ∧
      List.Forall₂ (fun k car => ∃ b, kvGet k ctx.world = some b ∧ unmarshalCar b = some car)
        keys cars ∧
      ((∀ k, startKey ≤ k → k < endKey → kvGet k ctx.world = none) → cars = []) := by
  obtain ⟨keys, hsorted, hmem, hrel⟩ := kvRange_spec startKey endKey ctx.world hend
  have hparse : ∀ kv ∈ kvRange startKey endKey ctx.world,
      ∃ car, unmarshalCar kv.2 = some car := by
    intro kv hkv
    obtain ⟨k, hk, _, hget⟩ := forall₂_mem_right hrel kv hkv
    obtain ⟨h1, h2, _⟩ := (hmem k).mp hk
    exact hcars k kv.2 h1 h2 hget
  obtain ⟨cars, hres, hdec⟩ := carResultIteratorFunction_ok _ hparse
  refine ⟨keys, cars, ?_, hsorted, hmem, ?_, ?_⟩
  · simp [GetCarsByRange, GetStateByRange, hfault, hres]
  · exact forall₂_trans_rel (fun k kv car h1 h2 => ⟨kv.2, h1.2, h2⟩) hrel hdec
  · intro hnone
    have hkeys : keys = [] := by
      apply List.eq_nil_iff_forall_not_mem.mpr
      intro k hk
      obtain ⟨h1, h2, h3⟩ := (hmem k).mp hk
      rw [hnone k h1 h2] at h3
      exact absurd h3 (by simp)
    subst hkeys
    have hl := List.forall₂_nil_left_iff.mp hrel
    rw [hl] at hdec
    exact List.forall₂_nil_left_iff.mp hdec

/-- Witness for C17: the scan of ["V1", "V3") over a ledger holding "V0" to "V3". -/
theorem GetCarsByRange_scan_witness :
    ("V3" : String) ≠ "" ∧ ctxRange.getStateByRangeErr "V1" "V3" = none ∧
    GetCarsByRange ctxRange "V1" "V3" = .ok [carV1, { carV1 with CarId := "V2" }] ∧
    (∃ (keys : List String) (cars : List Car),
      GetCarsByRange ctxRange "V1" "V3" = .ok cars ∧
      keys.Pairwise (· < ·) ∧
      (∀ k, k ∈ keys ↔ "V1" ≤ k ∧ k < "V3" ∧ (kvGet k ctxRange.world).isSome = true) ∧
      List.Forall₂ (fun k car => ∃ b, kvGet k ctxRange.world = some b ∧ unmarshalCar b = some car)
        keys cars ∧
      ((∀ k, "V1" ≤ k → k < "V3" → kvGet k ctxRange.world = none) → cars = [])) := by
  refine ⟨by decide, rfl, rfl, GetCarsByRange_scan ctxRange "V1" "V3" (by decide) rfl ?_⟩
  intro k b h1 h2 hget
  simp only [ctxRange, emptyCtx, kvGet] at hget
  split_ifs at hget with e3 e1 e2 e0
  · exact ⟨_, by rw [← Option.some.inj hget]; exact unmarshalCar_marshalCar _⟩
  · exact ⟨_, by rw [← Option.some.inj hget]; exact unmarshalCar_marshalCar _⟩
  · exact ⟨_, by rw [← Option.some.inj hget]; exact unmarshalCar_marshalCar _⟩
  · subst e0
    exact absurd h1 (not_le.mpr ((keyLt_iff_lt "V0" "V1").mp (by decide)))

end Contracts

namespace Contracts

open Fabric

theorem GetMatchingOrders_ctx (ctx : Ctx) (carID : String) :
    (GetMatchingOrders ctx carID).2 = ctx := by
  unfold GetMatchingOrders
  split
  · rfl
  · rfl
  · split
    · rfl
    · dsimp only
      split
      · rfl
      · split <;> rfl

/-- C18: `GetMatchingOrders` returns the context it was given whether it
succeeds or fails, so the public state and the restricted collection (orders
included) are those of before the call; and when the car id is not stored it
fails with "The asset <id> does not exist". -/
theorem GetMatchingOrders_read_only (ctx : Ctx) (carID : String) :
    (GetMatchingOrders ctx carID).2 = ctx ∧
      (GetMatchingOrders ctx carID).2.world = ctx.world ∧
      (GetMatchingOrders ctx carID).2.priv = ctx.priv ∧
      (CarExists ctx carID = .ok false →
        (GetMatchingOrders ctx carID).1 =
          .error ("The asset " ++ carID ++ " does not exist")) := by
  have h := GetMatchingOrders_ctx ctx carID
  refine ⟨h, by rw [h], by rw [h], ?_⟩
  intro hex
  simp [GetMatchingOrders, hex]

/-- Witness for C18: the discovery call for "V1" finds the order "O1" and
leaves it in place; the call for the absent "V2" fails. -/
theorem GetMatchingOrders_read_only_witness :
    (GetMatchingOrders (ctxWith "Org2MSP" carV1 orderO1) "V1").1 = .ok [orderO1] ∧
    (GetMatchingOrders (ctxWith "Org2MSP" carV1 orderO1) "V1").2.priv =
      [("O1", marshalOrder orderO1)] ∧
    (GetMatchingOrders (ctxWith "Org2MSP" carV1 orderBlue) "V1").1 = .ok [] ∧
    CarExists (ctxWith "Org2MSP" carV1 orderO1) "V2" = .ok false ∧
    (GetMatchingOrders (ctxWith "Org2MSP" carV1 orderO1) "V2").1 =
      .error "The asset V2 does not exist" := by
  have h1 := GetMatchingOrders_read_only (ctxWith "Org2MSP" carV1 orderO1) "V1"
  have h2 := GetMatchingOrders_read_only (ctxWith "Org2MSP" carV1 orderO1) "V2"
  exact ⟨rfl, h1.2.2.1, rfl, rfl, h2.2.2.2 rfl⟩

end Contracts

/-! ## History, reachable ledgers and their invariant -/

namespace Contracts

open Fabric

theorem PutState_cases (ctx : Ctx) (key : String) (value : Bytes) :
    (∃ err, PutState ctx key value = .error err) ∨
      PutState ctx key value = .ok { ctx with
        world := kvPut key value ctx.world
        history := ctx.history ++ [⟨key, ctx.txID, some value, ctx.txTimestamp, false⟩] } := by
  unfold PutState
  cases ctx.putStateErr key with
  | some err => exact Or.inl ⟨err, rfl⟩
  | none => exact Or.inr rfl

theorem DelState_cases (ctx : Ctx) (key : String) :
    (∃ err, DelState ctx key = .error err) ∨
      DelState ctx key = .ok { ctx with
        world := kvDel key ctx.world
        history := ctx.history ++ [⟨key, ctx.txID, none, ctx.txTimestamp, true⟩] } := by
  unfold DelState
  cases ctx.delStateErr key with
  | some err => exact Or.inl ⟨err, rfl⟩
  | none => exact Or.inr rfl

theorem CreateCar_effect (ctx : Ctx) (carID make model color manufacturerName
    dateOfManufacture : String) :
    Effect ctx (CreateCar ctx carID make model color manufacturerName dateOfManufacture).2 := by
  unfold CreateCar
  cases GetMSPID ctx with
  | error e => exact .same _ rfl rfl
  | ok org =>
    by_cases horg : org = "Org1MSP"
    · simp only [horg, if_true]
      cases CarExists ctx carID with
      | error e => exact .same _ rfl rfl
      | ok b =>
        cases b with
        | true => exact .same _ rfl rfl
        | false =>
          dsimp only
          rcases PutState_cases ctx carID (marshalCar
            { AssetType := "car", CarId := carID, Color := color,
              DateOfManufacture := dateOfManufacture, Make := make, Model := model,
              OwnedBy := manufacturerName, Status := "In Factory" }) with ⟨e, he⟩ | hok
          · rw [he]; exact .same _ rfl rfl
          · rw [hok]
            exact .put _ carID _ ctx.txID ctx.txTimestamp rfl rfl (Or.inl ⟨rfl, rfl⟩)
    · simp only [horg, if_false]; exact .same _ rfl rfl

theorem DeleteCar_effect (ctx : Ctx) (carID : String) : Effect ctx (DeleteCar ctx carID).2 := by
  unfold DeleteCar
  cases GetMSPID ctx with
  | error e => exact .same _ rfl rfl
  | ok org =>
    by_cases horg : org = "Org1MSP"
    · simp only [horg, if_true]
      cases CarExists ctx carID with
      | error e => exact .same _ rfl rfl
      | ok b =>
        cases b with
        | false => exact .same _ rfl rfl
        | true =>
          dsimp only
          rcases DelState_cases ctx carID with ⟨e, he⟩ | hok
          · rw [he]; exact .same _ rfl rfl
          · rw [hok]
            exact .del _ carID ctx.txID ctx.txTimestamp rfl rfl
    · simp only [horg, if_false]; exact .same _ rfl rfl

theorem RegisterCar_effect (ctx : Ctx) (carID ownerName registrationNumber : String) :
    Effect ctx (RegisterCar ctx carID ownerName registrationNumber).2 := by
  unfold RegisterCar
  cases GetMSPID ctx with
  | error e => exact .same _ rfl rfl
  | ok org =>
    by_cases horg : org = "Org3MSP"
    · simp only [horg, if_true]
      cases CarExists ctx carID with
      | error e => exact .same _ rfl rfl
      | ok b =>
        cases b with
        | false => exact .same _ rfl rfl
        | true =>
          dsimp only
          cases hcar : ReadCar ctx carID with
          | error e => exact .same _ rfl rfl
          | ok car =>
            dsimp only
            rcases PutState_cases ctx carID (marshalCar
              { car with Status := "Registered to " ++ ownerName ++ " with plate number " ++
                  registrationNumber, OwnedBy := ownerName }) with ⟨e, he⟩ | hok
            · rw [he]; exact .same _ rfl rfl
            · rw [hok]
              exact .put _ carID
                { car with Status := "Registered to " ++ ownerName ++ " with plate number " ++
                    registrationNumber, OwnedBy := ownerName }
                ctx.txID ctx.txTimestamp rfl rfl (Or.inr ⟨car, hcar, rfl, rfl⟩)
    · simp only [horg, if_false]; exact .same _ rfl rfl

theorem MatchOrder_effect (ctx : Ctx) (carID orderID : String) :
    Effect ctx (MatchOrder ctx carID orderID).2 := by
  unfold MatchOrder
  cases ReadPrivateState ctx orderID with
  | error e => exact .same _ rfl rfl
  | ok order =>
    dsimp only
    cases hcar : ReadCar ctx carID with
    | error e => exact .same _ rfl rfl
    | ok car =>
      dsimp only
      split
      · have hread : ∀ c : Ctx, c.world = ctx.world → c.history = ctx.history →
            c.txID = ctx.txID → c.txTimestamp = ctx.txTimestamp →
            Effect ctx (match PutState c carID (marshalCar
              { car with OwnedBy := order.DealerName, Status := "assigned to a dealer" }) with
              | .error err => ((Outcome.error err : Outcome String), c)
              | .ok ctx2 => (.ok ("Deleted order " ++ orderID ++ " and Assigned " ++
                  car.CarId ++ " to " ++ order.DealerName), ctx2)).2 := by
          intro c hw hh htx hts
          rcases PutState_cases c carID (marshalCar
            { car with OwnedBy := order.DealerName, Status := "assigned to a dealer" })
            with ⟨e, he⟩ | hok
          · rw [he]; exact .same _ hw hh
          · rw [hok]
            refine .put _ carID
              { car with OwnedBy := order.DealerName, Status := "assigned to a dealer" }
              ctx.txID ctx.txTimestamp ?_ ?_ (Or.inr ⟨car, hcar, rfl, rfl⟩)
            · simp [hw]
            · simp [hh, htx, hts]
        unfold DelPrivateData
        cases ctx.delPrivateDataErr orderID with
        | some e => exact hread ctx rfl rfl rfl rfl
        | none => exact hread _ rfl rfl rfl rfl
      · exact .same _ rfl rfl

theorem Step_effect (ctx next : Ctx) (h : Step ctx next) : Effect ctx next := by
  cases h with
  | createCar => exact CreateCar_effect ..
  | matchOrder => exact MatchOrder_effect ..
  | registerCar => exact RegisterCar_effect ..
  | deleteCar => exact DeleteCar_effect ..
  | newTx _ hw hh => exact .same _ hw hh

theorem lastValue_append (key : String) (history : List KeyModification)
    (e : KeyModification) :
    lastValue key (history ++ [e]) = if e.Key = key then e.Value else lastValue key history := by
  unfold lastValue
  by_cases h : e.Key = key
  · simp [List.filter_append, h]
  · simp [List.filter_append, h]

theorem Effect_inv (ctx next : Ctx) (heff : Effect ctx next) (hinv : LedgerInv ctx) :
    LedgerInv next := by
  cases heff with
  | same hw hh =>
    exact ⟨by rw [hh]; exact hinv.entries, by rw [hw, hh]; exact hinv.latest,
      by rw [hw]; exact hinv.cars⟩
  | put key car tx ts hw hh hcar =>
    have hgood : car.AssetType = "car" ∧ car.CarId = key := by
      rcases hcar with h | ⟨old, hread, h1, h2⟩
      · exact h
      · obtain ⟨_, bytes, hget, hun⟩ := ReadCar_ok_inv ctx key old hread
        obtain ⟨c0, hb, ht, hid⟩ := hinv.cars key bytes hget
        rw [hb, unmarshalCar_marshalCar] at hun
        have : c0 = old := Option.some.inj hun
        subst this
        exact ⟨h1.trans ht, h2.trans hid⟩
    refine ⟨?_, ?_, ?_⟩
    · intro e he
      rw [hh, List.mem_append] at he
      rcases he with he | he
      · exact hinv.entries e he
      · rw [List.mem_singleton] at he
        subst he
        exact Or.inr ⟨rfl, car, rfl⟩
    · intro k
      rw [hw, hh, lastValue_append]
      by_cases hk : key = k
      · subst hk; simp [kvGet_kvPut_self]
      · have hk2 : k ≠ key := fun e => hk e.symm
        simp only [hk, if_false]
        rw [kvGet_kvPut_ne key k _ _ hk2]
        exact hinv.latest k
    · intro k bytes hget
      rw [hw] at hget
      by_cases hk : k = key
      · subst hk
        rw [kvGet_kvPut_self] at hget
        exact ⟨car, (Option.some.inj hget).symm, hgood⟩
      · rw [kvGet_kvPut_ne key k _ _ hk] at hget
        exact hinv.cars k bytes hget
  | del key tx ts hw hh =>
    refine ⟨?_, ?_, ?_⟩
    · intro e he
      rw [hh, List.mem_append] at he
      rcases he with he | he
      · exact hinv.entries e he
      · rw [List.mem_singleton] at he
        subst he
        exact Or.inl ⟨rfl, rfl⟩
    · intro k
      rw [hw, hh, lastValue_append]
      by_cases hk : key = k
      · subst hk; simp [kvGet_kvDel_self]
      · have hk2 : k ≠ key := fun e => hk e.symm
        simp only [hk, if_false]
        rw [kvGet_kvDel_ne key k _ hk2]
        exact hinv.latest k
    · intro k bytes hget
      rw [hw] at hget
      by_cases hk : k = key
      · subst hk
        rw [kvGet_kvDel_self] at hget
        cases hget
      · rw [kvGet_kvDel_ne key k _ hk] at hget
        exact hinv.cars k bytes hget

theorem Reachable_inv (ctx : Ctx) (h : Reachable ctx) : LedgerInv ctx := by
  induction h with
  | empty c hw hh =>
    refine ⟨?_, ?_, ?_⟩
    · intro e he; rw [hh] at he; cases he
    · intro k; rw [hw, hh]; rfl
    · intro k b hb; rw [hw] at hb; cases hb
  | step c next _ hstep ih => exact Effect_inv c next (Step_effect c next hstep) ih

theorem ctxCreated_reachable : Reachable ctxCreated :=
  .step _ _ (.empty (emptyCtx "Org1MSP") rfl rfl)
    (.createCar _ "V1" "Toyota" "Corolla" "Red" "FactoryCo" "2024-01-01")

theorem ctxDeleted_reachable : Reachable ctxDeleted :=
  .step _ _ (.step _ ctxNextTx ctxCreated_reachable (.newTx _ _ rfl rfl))
    (.deleteCar _ "V1")

theorem historyRecords_ok (carID : String) (entries : List KeyModification)
    (h : ∀ e ∈ entries, CarEntry e) :
    historyRecords carID entries = .ok (entries.map (recordOf carID)) := by
  induction entries with
  | nil => rfl
  | cons e rest ih =>
    have hrest := ih (fun x hx => h x (List.mem_cons_of_mem _ hx))
    rcases h e (List.mem_cons_self _ _) with ⟨_, hval⟩ | ⟨_, car, hval⟩
    · simp [historyRecords, hrest, recordOf, hval, emptyValue, tombstoneCar]
    · simp [historyRecords, hrest, recordOf, hval, emptyValue, marshalCar, unmarshalCar,
        member]

theorem GetCarHistory_ok (ctx : Ctx) (carID : String)
    (hfault : ctx.getHistoryForKeyErr carID = none)
    (hentries : ∀ e ∈ ctx.history, e.Key = carID → CarEntry e) :
    GetCarHistory ctx carID =
      .ok ((ctx.history.filter (fun e => e.Key = carID)).reverse.map (recordOf carID)) := by
  simp only [GetCarHistory, GetHistoryForKey, hfault]
  apply historyRecords_ok
  intro e he
  rw [List.mem_reverse, List.mem_filter] at he
  exact hentries e he.1 (by simpa using he.2)

theorem recordOf_props (carID : String) (e : KeyModification) (he : CarEntry e) :
    (recordOf carID e).TxId = e.TxId ∧ (recordOf carID e).IsDelete = e.IsDelete ∧
      (recordOf carID e).Timestamp = formatRFC1123 e.Timestamp ∧
      (e.IsDelete = true → (recordOf carID e).Record = tombstoneCar carID) ∧
      (∀ car, e.Value = some (marshalCar car) → (recordOf carID e).Record = car) := by
  refine ⟨rfl, rfl, rfl, ?_, ?_⟩
  · intro hdel
    rcases he with ⟨_, hval⟩ | ⟨hnd, _⟩
    · simp [recordOf, hval, emptyValue]
    · rw [hdel] at hnd; cases hnd
  · intro car hval
    simp [recordOf, hval, emptyValue, marshalCar, unmarshalCar, member]

/-- C11 as stated fails: "V1" was created in "tx0" and then deleted in "tx1", and
`GetCarHistory` returns the tombstone of "tx1" first and the create snapshot of
"tx0" second, not the oldest record first. -/
theorem GetCarHistory_newest_first_counterexample :
    ctxDeleted.history.map (fun e => (e.Key, e.TxId, e.IsDelete)) =
      [("V1", "tx0", false), ("V1", "tx1", true)] ∧
    GetCarHistory ctxDeleted "V1" =
      .ok [{ Record := tombstoneCar "V1", TxId := "tx1",
             Timestamp := "Tue, 14 Nov 2023 22:13:20 UTC", IsDelete := true },
           { Record := carV1, TxId := "tx0", Timestamp := "Thu, 01 Jan 1970 00:00:00 UTC",
             IsDelete := false }] ∧
    GetCarHistory ctxDeleted "V1" ≠
      .ok [{ Record := carV1, TxId := "tx0", Timestamp := "Thu, 01 Jan 1970 00:00:00 UTC",
             IsDelete := false },
           { Record := tombstoneCar "V1", TxId := "tx1",
             Timestamp := "Tue, 14 Nov 2023 22:13:20 UTC", IsDelete := true }] := by
  have h : GetCarHistory ctxDeleted "V1" =
      .ok [{ Record := tombstoneCar "V1", TxId := "tx1",
             Timestamp := "Tue, 14 Nov 2023 22:13:20 UTC", IsDelete := true },
           { Record := carV1, TxId := "tx0", Timestamp := "Thu, 01 Jan 1970 00:00:00 UTC",
             IsDelete := false }] := rfl
  refine ⟨rfl, h, ?_⟩
  rw [h]
  intro hsame
  have hfirst := congrArg (fun r => (r.toOption.bind List.head?).map (fun x => x.IsDelete)) hsame
  simp [Except.toOption] at hfirst

/-- C11 amended: when the history query does not fail and the entries recorded
for the key are those of the car contract (deletions without a value, writes
of a car), `GetCarHistory` returns one record per entry in the order of the
history iterator, newest first, each with the entry's transaction id,
formatted time and `IsDelete` flag; a deletion gives the car with only `CarId`
set and a write gives the car written.  After `CreateCar` and then `DeleteCar`
on a key without history the result is the tombstone followed by the create
snapshot. -/
theorem GetCarHistory_one_record_newest_first (ctx : Ctx) (carID : String) :
    (ctx.getHistoryForKeyErr carID = none →
      (∀ e ∈ ctx.history, e.Key = carID → CarEntry e) →
      ∃ records, GetCarHistory ctx carID = .ok records ∧
        List.Forall₂ (fun e r =>
            r.TxId = e.TxId ∧ r.IsDelete = e.IsDelete ∧
            r.Timestamp = formatRFC1123 e.Timestamp ∧
            (e.IsDelete = true → r.Record = tombstoneCar carID) ∧
            (∀ car, e.Value = some (marshalCar car) → r.Record = car))
          (ctx.history.filter (fun e => e.Key = carID)).reverse records) ∧
    (∀ (make model color manufacturerName dateOfManufacture : String) (next : Ctx),
      GetMSPID ctx = .ok "Org1MSP" → GetState ctx carID = .ok none →
      ctx.putStateErr carID = none → (∀ e ∈ ctx.history, e.Key ≠ carID) →
      next.world =
        (CreateCar ctx carID make model color manufacturerName dateOfManufacture).2.world →
      next.history =
        (CreateCar ctx carID make model color manufacturerName dateOfManufacture).2.history →
      GetMSPID next = .ok "Org1MSP" → next.getStateErr carID = none →
      next.delStateErr carID = none → next.getHistoryForKeyErr carID = none →
      GetCarHistory (DeleteCar next carID).2 carID =
        .ok [{ Record := tombstoneCar carID, TxId := next.txID,
               Timestamp := formatRFC1123 next.txTimestamp, IsDelete := true },
             { Record := { AssetType := "car", CarId := carID, Color := color,
                           DateOfManufacture := dateOfManufacture, Make := make,
                           Model := model, OwnedBy := manufacturerName,
                           Status := "In Factory" },
               TxId := ctx.txID, Timestamp := formatRFC1123 ctx.txTimestamp,
               IsDelete := false }]) := by
  constructor
  · intro hfault hentries
    refine ⟨_, GetCarHistory_ok ctx carID hfault hentries, ?_⟩
    rw [List.forall₂_map_right_iff, List.forall₂_same]
    intro e he
    rw [List.mem_reverse, List.mem_filter] at he
    exact recordOf_props carID e (hentries e he.1 (by simpa using he.2))
  · intro make model color manufacturerName dateOfManufacture next hmsp habsent hput hfresh
      hworld hhistory hmsp2 hget hdel hhist
    have hcreate : CreateCar ctx carID make model color manufacturerName dateOfManufacture =
        (.ok ("successfully added car " ++ carID),
          { ctx with
            world := kvPut carID (marshalCar
              { AssetType := "car", CarId := carID, Color := color,
                DateOfManufacture := dateOfManufacture, Make := make, Model := model,
                OwnedBy := manufacturerName, Status := "In Factory" }) ctx.world
            history := ctx.history ++ [⟨carID, ctx.txID, some (marshalCar
              { AssetType := "car", CarId := carID, Color := color,
                DateOfManufacture := dateOfManufacture, Make := make, Model := model,
                OwnedBy := manufacturerName, Status := "In Factory" }), ctx.txTimestamp,
                false⟩] }) := by
      simp [CreateCar, hmsp, CarExists, habsent, PutState, hput]
    rw [hcreate] at hworld hhistory
    simp only at hworld hhistory
    have hex : CarExists next carID = .ok true := by
      simp [CarExists, GetState, hget, hworld, kvGet_kvPut_self]
    have hdelete : DeleteCar next carID =
        (.ok ("Car with id " ++ carID ++ " is deleted from the world state."),
          { next with
            world := kvDel carID next.world
            history := next.history ++ [⟨carID, next.txID, none, next.txTimestamp, true⟩] }) := by
      simp [DeleteCar, hmsp2, hex, DelState, hdel]
    rw [hdelete]
    have hfilter : ctx.history.filter (fun e => e.Key = carID) = [] := by
      rw [List.filter_eq_nil_iff]
      intro e he
      simpa using hfresh e he
    simp [GetCarHistory, GetHistoryForKey, hhist, hhistory, List.filter_append, hfilter,
      historyRecords, emptyValue, marshalCar, unmarshalCar, member, tombstoneCar]

/-- C12 as stated fails: "V1" was created and then deleted, which is a reachable
ledger; the result of `GetCarHistory` is not empty and its final record is the
create snapshot, not a tombstone, yet `ReadCar` does not return the car of that
final record: it fails with "the car V1 does not exist". -/
theorem history_final_record_counterexample :
    Reachable ctxDeleted ∧
    (∃ records final, GetCarHistory ctxDeleted "V1" = .ok records ∧ records ≠ [] ∧
      records.getLast? = some final ∧ final.IsDelete = false ∧ final.Record = carV1 ∧
      ReadCar ctxDeleted "V1" ≠ .ok final.Record) ∧
    ReadCar ctxDeleted "V1" = .error "the car V1 does not exist" := by
  refine ⟨ctxDeleted_reachable, ⟨_, _, rfl, by simp, rfl, rfl, rfl, ?_⟩, rfl⟩
  intro h
  have hread : ReadCar ctxDeleted "V1" = .error "the car V1 does not exist" := rfl
  rw [hread] at h
  cases h

/-- C12 amended: in every ledger reachable from the empty one, for every key
whose reads do not fail, `GetCarHistory` succeeds; when its result is empty or
its first record (the most recent one) is a tombstone, `ReadCar` fails with
"the car <key> does not exist", and otherwise `ReadCar` returns the car of that
first record. -/
theorem history_replay_matches_state (ctx : Ctx) (key : String) (hreach : Reachable ctx)
    (hget : ctx.getStateErr key = none) (hhist : ctx.getHistoryForKeyErr key = none) :
    ∃ records, GetCarHistory ctx key = .ok records ∧
      ((records = [] ∨ ∃ r, records.head? = some r ∧ r.IsDelete = true) →
        ReadCar ctx key = .error ("the car " ++ key ++ " does not exist")) ∧
      (∀ r, records.head? = some r → r.IsDelete = false →
        ReadCar ctx key = .ok r.Record) := by
  have hinv := Reachable_inv ctx hreach
  refine ⟨_, GetCarHistory_ok ctx key hhist (fun e he _ => hinv.entries e he), ?_, ?_⟩
  · have habsent : kvGet key ctx.world = none →
        ReadCar ctx key = .error ("the car " ++ key ++ " does not exist") := by
      intro h
      simp [ReadCar, GetState, hget, h]
    have hlatest := hinv.latest key
    unfold lastValue at hlatest
    rintro (hnil | ⟨r, hlast, hdel⟩)
    · rw [List.map_eq_nil_iff, List.reverse_eq_nil_iff] at hnil
      rw [hnil] at hlatest
      exact habsent hlatest
    · rw [List.head?_map, List.head?_reverse] at hlast
      cases he : (ctx.history.filter (fun e => e.Key = key)).getLast? with
      | none => rw [he] at hlast; cases hlast
      | some e =>
        rw [he] at hlast hlatest
        have hr : recordOf key e = r := Option.some.inj hlast
        have hmem : e ∈ ctx.history :=
          (List.mem_filter.mp (List.mem_of_getLast?_eq_some he)).1
        rcases hinv.entries e hmem with ⟨_, hval⟩ | ⟨hnd, _⟩
        · simp only [hval] at hlatest
          exact habsent hlatest
        · rw [← hr] at hdel
          have : e.IsDelete = true := hdel
          rw [this] at hnd
          cases hnd
  · intro r hlast hnd
    rw [List.head?_map, List.head?_reverse] at hlast
    have hlatest := hinv.latest key
    unfold lastValue at hlatest
    cases he : (ctx.history.filter (fun e => e.Key = key)).getLast? with
    | none => rw [he] at hlast; cases hlast
    | some e =>
      rw [he] at hlast hlatest
      have hr : recordOf key e = r := Option.some.inj hlast
      have hmem : e ∈ ctx.history :=
        (List.mem_filter.mp (List.mem_of_getLast?_eq_some he)).1
      have hentry := hinv.entries e hmem
      rcases hentry with ⟨hd, _⟩ | ⟨_, car, hval⟩
      · rw [← hr] at hnd
        have : e.IsDelete = false := hnd
        rw [this] at hd
        cases hd
      · simp only [hval] at hlatest
        rw [← hr, (recordOf_props key e (Or.inr ⟨by assumption, car, hval⟩)).2.2.2.2 car hval]
        exact ReadCar_of_stored ctx key car hget hlatest

theorem MatchOrder_ok_post (ctx : Ctx) (carID orderID msg : String)
    (h : (MatchOrder ctx carID orderID).1 = .ok msg) :
    ∃ (order : Order) (car : Car), ReadCar ctx carID = .ok car ∧
      ReadCar (MatchOrder ctx carID orderID).2 carID =
        .ok { car with OwnedBy := order.DealerName, Status := "assigned to a dealer" } := by
  unfold MatchOrder at h ⊢
  cases hord : ReadPrivateState ctx orderID with
  | error e => rw [hord] at h; cases h
  | ok order =>
    rw [hord] at h
    dsimp only at h ⊢
    cases hcar : ReadCar ctx carID with
    | error e => rw [hcar] at h; cases h
    | ok car =>
      rw [hcar] at h
      dsimp only at h ⊢
      obtain ⟨hg, _⟩ := ReadCar_ok_inv ctx carID car hcar
      refine ⟨order, car, rfl, ?_⟩
      split at h
      · rename_i hcond
        rw [if_pos hcond]
        have key : ∀ c : Ctx, c.getStateErr = ctx.getStateErr →
            (match PutState c carID (marshalCar
              { car with OwnedBy := order.DealerName, Status := "assigned to a dealer" }) with
              | .error err => ((Outcome.error err : Outcome String), c)
              | .ok ctx2 => (.ok ("Deleted order " ++ orderID ++ " and Assigned " ++
                  car.CarId ++ " to " ++ order.DealerName), ctx2)).1 = .ok msg →
            ReadCar (match PutState c carID (marshalCar
              { car with OwnedBy := order.DealerName, Status := "assigned to a dealer" }) with
              | .error err => ((Outcome.error err : Outcome String), c)
              | .ok ctx2 => (.ok ("Deleted order " ++ orderID ++ " and Assigned " ++
                  car.CarId ++ " to " ++ order.DealerName), ctx2)).2 carID =
              .ok { car with OwnedBy := order.DealerName,
                             Status := "assigned to a dealer" } := by
          intro c hc hok
          rcases PutState_cases c carID (marshalCar
            { car with OwnedBy := order.DealerName, Status := "assigned to a dealer" })
            with ⟨e, he⟩ | hput
          · rw [he] at hok; cases hok
          · rw [hput]
            exact ReadCar_of_stored _ _ _ (by rw [← hg]; exact congrFun hc carID)
              (kvGet_kvPut_self _ _ _)
        unfold DelPrivateData at h ⊢
        cases hd : ctx.delPrivateDataErr orderID with
        | some e => rw [hd] at h; exact key ctx rfl h
        | none => rw [hd] at h; exact key _ rfl h
      · cases h

theorem RegisterCar_ok_post (ctx : Ctx) (carID ownerName registrationNumber msg : String)
    (h : (RegisterCar ctx carID ownerName registrationNumber).1 = .ok msg) :
    ∃ car : Car, ReadCar ctx carID = .ok car ∧
      ReadCar (RegisterCar ctx carID ownerName registrationNumber).2 carID =
        .ok { car with Status := "Registered to " ++ ownerName ++ " with plate number " ++
                registrationNumber, OwnedBy := ownerName } := by
  unfold RegisterCar at h ⊢
  cases hm : GetMSPID ctx with
  | error e => rw [hm] at h; cases h
  | ok org =>
    rw [hm] at h
    dsimp only at h ⊢
    by_cases horg : org = "Org3MSP"
    · rw [if_pos horg] at h ⊢
      cases hex : CarExists ctx carID with
      | error e => rw [hex] at h; cases h
      | ok b =>
        rw [hex] at h
        cases b with
        | false => cases h
        | true =>
          dsimp only at h ⊢
          cases hcar : ReadCar ctx carID with
          | error e => rw [hcar] at h; cases h
          | ok car =>
            rw [hcar] at h
            dsimp only at h ⊢
            obtain ⟨hg, _⟩ := ReadCar_ok_inv ctx carID car hcar
            refine ⟨car, rfl, ?_⟩
            rcases PutState_cases ctx carID (marshalCar
              { car with Status := "Registered to " ++ ownerName ++ " with plate number " ++
                  registrationNumber, OwnedBy := ownerName }) with ⟨e, he⟩ | hput
            · rw [he] at h; cases h
            · rw [hput]
              exact ReadCar_of_stored _ _ _ hg (kvGet_kvPut_self _ _ _)
    · rw [if_neg horg] at h; cases h

/-- C19: in every ledger reachable from the empty one, every value stored under
a key of the public state is a car with assetType "car" and carId equal to that
key; and whenever `MatchOrder` or `RegisterCar` succeeds, the car read back has
the same assetType, carId, make, model, color and dateOfManufacture as the car
read before the call. -/
theorem type_tag_never_changes (ctx : Ctx) :
    (Reachable ctx → ∀ key bytes, kvGet key ctx.world = some bytes →
      ∃ car : Car, unmarshalCar bytes = some car ∧ car.AssetType = "car" ∧ car.CarId = key) ∧
    (∀ carID orderID msg, (MatchOrder ctx carID orderID).1 = .ok msg →
      ∃ before after : Car, ReadCar ctx carID = .ok before ∧
        ReadCar (MatchOrder ctx carID orderID).2 carID = .ok after ∧
        after.AssetType = before.AssetType ∧ after.CarId = before.CarId ∧
        after.Make = before.Make ∧ after.Model = before.Model ∧
        after.Color = before.Color ∧ after.DateOfManufacture = before.DateOfManufacture) ∧
    (∀ carID ownerName registrationNumber msg,
      (RegisterCar ctx carID ownerName registrationNumber).1 = .ok msg →
      ∃ before after : Car, ReadCar ctx carID = .ok before ∧
        ReadCar (RegisterCar ctx carID ownerName registrationNumber).2 carID = .ok after ∧
        after.AssetType = before.AssetType ∧ after.CarId = before.CarId ∧
        after.Make = before.Make ∧ after.Model = before.Model ∧
        after.Color = before.Color ∧ after.DateOfManufacture = before.DateOfManufacture) := by
  refine ⟨?_, ?_, ?_⟩
  · intro hreach key bytes hget
    obtain ⟨car, hb, ht, hid⟩ := (Reachable_inv ctx hreach).cars key bytes hget
    exact ⟨car, by rw [hb]; exact unmarshalCar_marshalCar car, ht, hid⟩
  · intro carID orderID msg h
    obtain ⟨order, car, h1, h2⟩ := MatchOrder_ok_post ctx carID orderID msg h
    exact ⟨car, _, h1, h2, rfl, rfl, rfl, rfl, rfl, rfl⟩
  · intro carID ownerName registrationNumber msg h
    obtain ⟨car, h1, h2⟩ := RegisterCar_ok_post ctx carID ownerName registrationNumber msg h
    exact ⟨car, _, h1, h2, rfl, rfl, rfl, rfl, rfl, rfl⟩

/-- Witness for C11 amended: scenario 4, the history of "V1" after it was
created in "tx0" and deleted in "tx1". -/
theorem GetCarHistory_one_record_newest_first_witness :
    GetCarHistory ctxDeleted "V1" =
      .ok [{ Record := tombstoneCar "V1", TxId := "tx1",
             Timestamp := "Tue, 14 Nov 2023 22:13:20 UTC", IsDelete := true },
           { Record := carV1, TxId := "tx0", Timestamp := "Thu, 01 Jan 1970 00:00:00 UTC",
             IsDelete := false }] ∧
    (∃ records, GetCarHistory ctxDeleted "V1" = .ok records ∧
        List.Forall₂ (fun e r =>
            r.TxId = e.TxId ∧ r.IsDelete = e.IsDelete ∧
            r.Timestamp = formatRFC1123 e.Timestamp ∧
            (e.IsDelete = true → r.Record = tombstoneCar "V1") ∧
            (∀ car, e.Value = some (marshalCar car) → r.Record = car))
          (ctxDeleted.history.filter (fun e => e.Key = "V1")).reverse records) := by
  have h2 := (GetCarHistory_one_record_newest_first (emptyCtx "Org1MSP") "V1").2 "Toyota"
    "Corolla" "Red" "FactoryCo" "2024-01-01" ctxNextTx rfl rfl rfl
    (fun e he => by cases he) rfl rfl rfl rfl rfl rfl
  have h1 := (GetCarHistory_one_record_newest_first ctxDeleted "V1").1 rfl
    (fun e he _ => (Reachable_inv ctxDeleted ctxDeleted_reachable).entries e he)
  exact ⟨h2, h1⟩

/-- Witness for C12 amended: after the creation `ReadCar` returns the car of the
first record, and after the deletion, when the first record is the tombstone,
it fails. -/
theorem history_replay_matches_state_witness :
    Reachable ctxCreated ∧ Reachable ctxDeleted ∧
    ReadCar ctxCreated "V1" = .ok carV1 ∧
    ReadCar ctxDeleted "V1" = .error "the car V1 does not exist" ∧
    (∃ records, GetCarHistory ctxCreated "V1" = .ok records ∧
      ((records = [] ∨ ∃ r, records.head? = some r ∧ r.IsDelete = true) →
        ReadCar ctxCreated "V1" = .error ("the car " ++ "V1" ++ " does not exist")) ∧
      (∀ r, records.head? = some r → r.IsDelete = false →
        ReadCar ctxCreated "V1" = .ok r.Record)) ∧
    (∃ records, GetCarHistory ctxDeleted "V1" = .ok records ∧
      ((records = [] ∨ ∃ r, records.head? = some r ∧ r.IsDelete = true) →
        ReadCar ctxDeleted "V1" = .error ("the car " ++ "V1" ++ " does not exist")) ∧
      (∀ r, records.head? = some r → r.IsDelete = false →
        ReadCar ctxDeleted "V1" = .ok r.Record)) :=
  ⟨ctxCreated_reachable, ctxDeleted_reachable, rfl, rfl,
    history_replay_matches_state ctxCreated "V1" ctxCreated_reachable rfl rfl,
    history_replay_matches_state ctxDeleted "V1" ctxDeleted_reachable rfl rfl⟩

/-- Witness for C19: the ledger after the creation of "V1", and the match and
the registration of "V1". -/
theorem type_tag_never_changes_witness :
    Reachable ctxCreated ∧
    kvGet "V1" ctxCreated.world = some (marshalCar carV1) ∧
    (∃ car : Car, unmarshalCar (marshalCar carV1) = some car ∧ car.AssetType = "car" ∧
      car.CarId = "V1") ∧
    (MatchOrder (ctxWith "Org2MSP" carV1 orderO1) "V1" "O1").1 =
      .ok "Deleted order O1 and Assigned V1 to Dealer9" ∧
    (∃ before after : Car, ReadCar (ctxWith "Org2MSP" carV1 orderO1) "V1" = .ok before ∧
        ReadCar (MatchOrder (ctxWith "Org2MSP" carV1 orderO1) "V1" "O1").2 "V1" = .ok after ∧
        after.AssetType = before.AssetType ∧ after.CarId = before.CarId ∧
        after.Make = before.Make ∧ after.Model = before.Model ∧
        after.Color = before.Color ∧ after.DateOfManufacture = before.DateOfManufacture) ∧
    (RegisterCar (ctxWith "Org3MSP" carV1 orderO1) "V1" "Alice" "KL-01").1 =
      .ok "Car V1 successfully registered to Alice" ∧
    (∃ before after : Car, ReadCar (ctxWith "Org3MSP" carV1 orderO1) "V1" = .ok before ∧
        ReadCar (RegisterCar (ctxWith "Org3MSP" carV1 orderO1) "V1" "Alice" "KL-01").2 "V1" =
          .ok after ∧
        after.AssetType = before.AssetType ∧ after.CarId = before.CarId ∧
        after.Make = before.Make ∧ after.Model = before.Model ∧
        after.Color = before.Color ∧ after.DateOfManufacture = before.DateOfManufacture) :=
  ⟨ctxCreated_reachable, rfl,
    (type_tag_never_changes ctxCreated).1 ctxCreated_reachable "V1" _ rfl, rfl,
    (type_tag_never_changes (ctxWith "Org2MSP" carV1 orderO1)).2.1 "V1" "O1" _ rfl, rfl,
    (type_tag_never_changes (ctxWith "Org3MSP" carV1 orderO1)).2.2 "V1" "Alice" "KL-01" _ rfl⟩

end Contracts

/-! ## The rice chaincode -/

namespace Rice

theorem kvGet_after_kvPut {α : Type} (key : String) (value : α) (st : List (String × α)) :
    kvGet key (kvPut key value st) = some value := by
  simp [kvPut, kvGet]

theorem inInt64_zero : inInt64 0 = true := by decide

theorem inInt64_intField (name : String) (ms : List (String × Value Int)) :
    inInt64 (intField name ms) = true := by
  unfold intField
  have h : ∀ acc : Int, inInt64 acc = true →
      inInt64 (ms.foldl (fun acc kv =>
        if kv.1 = name then
          match kv.2 with
          | .num n => if inInt64 n then n else acc
          | _ => acc
        else acc) acc) = true := by
    induction ms with
    | nil => intro acc h; exact h
    | cons kv rest ih =>
      intro acc hacc
      simp only [List.foldl_cons]
      apply ih
      split
      · split
        · split
          · assumption
          · exact hacc
        · exact hacc
      · exact hacc
  exact h 0 inInt64_zero

theorem unmarshalBatch_marshalBatch (batch : RiceBatch) (h : inInt64 batch.Quantity = true) :
    (unmarshalBatch (marshalBatch batch)).1 = batch := by
  cases batch
  simp only at h
  simp [marshalBatch, unmarshalBatch, strField, intField, h]

theorem inInt64_unmarshalBatch (doc : Doc Int) : inInt64 (unmarshalBatch doc).1.Quantity = true := by
  cases doc with
  | junk raw => exact inInt64_zero
  | obj ms => exact inInt64_intField "quantity" ms

theorem unmarshalDetails_marshalDetails (details : PrivateDetails) :
    unmarshalDetails (marshalDetails details) = (details, none) := by
  cases details
  simp [marshalDetails, unmarshalDetails, strField, floatField, strFieldBad, floatFieldBad]

theorem ReadRiceBatch_after_put (ctx : Ctx) (batchID : String) (batch : RiceBatch)
    (hget : ctx.getStateErr batchID = none) (hq : inInt64 batch.Quantity = true) :
    ReadRiceBatch { ctx with world := kvPut batchID (marshalBatch batch) ctx.world } batchID =
      .ok batch := by
  simp [ReadRiceBatch, GetState, hget, kvGet_after_kvPut, unmarshalBatch_marshalBatch batch hq]

theorem ReadRiceBatch_ok_inv (ctx : Ctx) (batchID : String) (batch : RiceBatch)
    (h : ReadRiceBatch ctx batchID = .ok batch) :
    ctx.getStateErr batchID = none ∧ inInt64 batch.Quantity = true := by
  unfold ReadRiceBatch GetState at h
  cases hg : ctx.getStateErr batchID with
  | some e => simp [hg] at h
  | none =>
    refine ⟨rfl, ?_⟩
    cases hv : kvGet batchID ctx.world with
    | none => simp [hg, hv] at h
    | some doc =>
      simp [hg, hv] at h
      rw [← h]
      exact inInt64_unmarshalBatch doc

/-- C14: for a stored batch, whatever its current holder, and a write that goes
through, `TransferToMiller` succeeds and the batch read back is the batch read
before with `CurrentHolder` "Miller", and `TransferToRetailer` succeeds and
gives the batch with `CurrentHolder` "Retailer" (all other fields as before).
When the key reads as absent each fails with "batch <id> does not exist" and
returns the context it was given. -/
theorem Transfer_unconditional (ctx : Ctx) (batchID : String) :
    (∀ batch, ReadRiceBatch ctx batchID = .ok batch → ctx.putStateErr batchID = none →
      (TransferToMiller ctx batchID).1 = .ok () ∧
      ReadRiceBatch (TransferToMiller ctx batchID).2 batchID =
        .ok { BatchID := batch.BatchID, Farmer := batch.Farmer,
              HarvestDate := batch.HarvestDate, Quantity := batch.Quantity,
              Location := batch.Location, QualityGrade := batch.QualityGrade,
              CurrentHolder := "Miller" } ∧
      (TransferToRetailer ctx batchID).1 = .ok () ∧
      ReadRiceBatch (TransferToRetailer ctx batchID).2 batchID =
        .ok { BatchID := batch.BatchID, Farmer := batch.Farmer,
              HarvestDate := batch.HarvestDate, Quantity := batch.Quantity,
              Location := batch.Location, QualityGrade := batch.QualityGrade,
              CurrentHolder := "Retailer" }) ∧
    (GetState ctx batchID = .ok none →
      TransferToMiller ctx batchID =
        (.error ("batch " ++ batchID ++ " does not exist"), ctx) ∧
      TransferToRetailer ctx batchID =
        (.error ("batch " ++ batchID ++ " does not exist"), ctx)) := by
  constructor
  · intro batch hread hput
    obtain ⟨hget, hq⟩ := ReadRiceBatch_ok_inv ctx batchID batch hread
    have hm : TransferToMiller ctx batchID =
        (.ok (), { ctx with
          world := kvPut batchID (marshalBatch { batch with CurrentHolder := "Miller" })
            ctx.world }) := by
      simp [TransferToMiller, hread, PutState, hput]
    have hr : TransferToRetailer ctx batchID =
        (.ok (), { ctx with
          world := kvPut batchID (marshalBatch { batch with CurrentHolder := "Retailer" })
            ctx.world }) := by
      simp [TransferToRetailer, hread, PutState, hput]
    rw [hm, hr]
    exact ⟨rfl, ReadRiceBatch_after_put ctx batchID _ hget hq, rfl,
      ReadRiceBatch_after_put ctx batchID _ hget hq⟩
  · intro habsent
    simp [TransferToMiller, TransferToRetailer, ReadRiceBatch, habsent]

/-- Witness for C14: "BATCH101", still with the farmer, goes to the retailer
without having been at the miller; the absent "BATCH999" is refused. -/
theorem Transfer_unconditional_witness :
    ReadRiceBatch ctxBatches "BATCH101" = .ok batch101 ∧
    batch101.CurrentHolder = "Farmer" ∧
    (TransferToRetailer ctxBatches "BATCH101").1 = .ok () ∧
    ReadRiceBatch (TransferToRetailer ctxBatches "BATCH101").2 "BATCH101" =
      .ok { batch101 with CurrentHolder := "Retailer" } ∧
    ReadRiceBatch (TransferToMiller ctxBatches "BATCH101").2 "BATCH101" =
      .ok { batch101 with CurrentHolder := "Miller" } ∧
    GetState ctxBatches "BATCH999" = .ok none ∧
    TransferToMiller ctxBatches "BATCH999" =
      (.error "batch BATCH999 does not exist", ctxBatches) := by
  have h1 := (Transfer_unconditional ctxBatches "BATCH101").1 batch101 rfl rfl
  have h2 := (Transfer_unconditional ctxBatches "BATCH999").2 rfl
  exact ⟨rfl, rfl, h1.2.2.1, h1.2.2.2, h1.2.1, rfl, h2.1⟩

/-- C16: whatever the transient input (absent, not JSON, of the wrong shape or
well-formed), `AddPrivateDetails` leaves the public state as it was; and when
it succeeds, `ReadPrivateDetails` afterwards returns the price and the note
decoded from the transient input. -/
theorem AddPrivateDetails_private_only (ctx : Ctx) (batchID : String) :
    (AddPrivateDetails ctx batchID).2.world = ctx.world ∧
    (∀ transientMap privateJSON, ctx.transient = .ok transientMap →
      kvGet "privateDetails" transientMap = some privateJSON →
      (AddPrivateDetails ctx batchID).1 = .ok () →
      ctx.getPrivateDataErr batchID = none →
      ReadPrivateDetails (AddPrivateDetails ctx batchID).2 batchID =
        .ok (unmarshalDetails privateJSON).1) := by
  constructor
  · unfold AddPrivateDetails
    cases ctx.transient with
    | error e => rfl
    | ok tm =>
      dsimp only
      cases kvGet "privateDetails" tm with
      | none => rfl
      | some privateJSON =>
        dsimp only
        cases hun : unmarshalDetails privateJSON with
        | mk details err =>
          cases err with
          | some e => rfl
          | none =>
            dsimp only
            unfold PutPrivateData
            cases ctx.putPrivateDataErr batchID with
            | some e => rfl
            | none => rfl
  · intro tm privateJSON htm hkey hok hget
    unfold AddPrivateDetails at hok ⊢
    rw [htm] at hok ⊢
    dsimp only at hok ⊢
    rw [hkey] at hok ⊢
    dsimp only at hok ⊢
    cases hun : unmarshalDetails privateJSON with
    | mk details err =>
      rw [hun] at hok
      cases err with
      | some e => cases hok
      | none =>
        dsimp only at hok ⊢
        unfold PutPrivateData at hok ⊢
        cases hp : ctx.putPrivateDataErr batchID with
        | some e => rw [hp] at hok; cases hok
        | none =>
          simp [ReadPrivateDetails, GetPrivateData, hget, kvGet_after_kvPut,
            unmarshalDetails_marshalDetails]

/-- Witness for C16: the transient input of the application. -/
theorem AddPrivateDetails_private_only_witness :
    (AddPrivateDetails ctxTransient "BATCH101").1 = .ok () ∧
    (AddPrivateDetails ctxTransient "BATCH101").2.world =
      [("BATCH101", marshalBatch batch101)] ∧
    ReadPrivateDetails (AddPrivateDetails ctxTransient "BATCH101").2 "BATCH101" =
      .ok { PricePerKg := ⟨4631530004285489152⟩, GradeNote := "Premium Quality" } ∧
    (AddPrivateDetails emptyCtx "BATCH101").1 =
      .error "privateDetails key not found in transient map" := by
  have h := AddPrivateDetails_private_only ctxTransient "BATCH101"
  exact ⟨rfl, h.1, h.2 _ _ rfl rfl rfl rfl, rfl⟩

/-- C13 fails on the code: the selector text is built from the argument without
escaping.  "Kuttanad" selects the batch of Kuttanad, but a location that closes
the string and adds a field selects the batch of Kuttanad (whose location is
not the argument) and not the batch that has that location; and for a location
(or grade) with a double quote the query is not JSON and the call fails,
although a batch with that location is stored. -/
theorem Query_selector_not_escaped :
    QueryByLocation ctxBatches "Kuttanad" = .ok [batch101] ∧
    (QueryByLocation ctxBatches craftedLocation = .ok [batch101] ∧
      batch101.Location ≠ craftedLocation ∧
      ReadRiceBatch ctxBatches "BATCH102" = .ok batch102 ∧
      batch102.Location = craftedLocation) ∧
    (QueryByLocation ctxBatches "a\"b" = .error "invalid query" ∧
      ReadRiceBatch ctxBatches "BATCH103" = .ok batch103 ∧
      batch103.Location = "a\"b") ∧
    QueryByQuality ctxBatches "Grade\"A" = .error "invalid query" := by
  refine ⟨rfl, ⟨rfl, by decide, rfl, rfl⟩, ⟨rfl, rfl, rfl⟩, rfl⟩

/-- C20 fails on the code: `ReadRiceBatch` discards the error of
`json.Unmarshal`.  For the value under "B1", which is not JSON, it returns a
zeroed batch without error, and `TransferToMiller` and `TransferToRetailer`
succeed and replace the stored value by that zeroed batch with the new holder;
for the value under "B2", whose quantity is a string, the quantity reads as 0
without error. -/
theorem Transfer_overwrites_malformed :
    kvGet "B1" ctxMalformed.world = some (.junk "not json") ∧
    (unmarshalBatch (.junk "not json")).2 = some Contracts.unmarshalError ∧
    ReadRiceBatch ctxMalformed "B1" =
      .ok { BatchID := "", Farmer := "", HarvestDate := "", Quantity := 0, Location := "",
            QualityGrade := "", CurrentHolder := "" } ∧
    (TransferToMiller ctxMalformed "B1").1 = .ok () ∧
    kvGet "B1" (TransferToMiller ctxMalformed "B1").2.world =
      some (marshalBatch { BatchID := "", Farmer := "", HarvestDate := "", Quantity := 0,
                           Location := "", QualityGrade := "", CurrentHolder := "Miller" }) ∧
    (TransferToRetailer ctxMalformed "B1").1 = .ok () ∧
    kvGet "B1" (TransferToRetailer ctxMalformed "B1").2.world =
      some (marshalBatch { BatchID := "", Farmer := "", HarvestDate := "", Quantity := 0,
                           Location := "", QualityGrade := "", CurrentHolder := "Retailer" }) ∧
    (∃ doc, kvGet "B2" ctxMalformed.world = some doc ∧
      (unmarshalBatch doc).2 = some Contracts.unmarshalError) ∧
    ReadRiceBatch ctxMalformed "B2" =
      .ok { BatchID := "B2", Farmer := "", HarvestDate := "", Quantity := 0, Location := "",
            QualityGrade := "", CurrentHolder := "Farmer" } := by
  exact ⟨rfl, rfl, rfl, rfl, rfl, rfl, rfl, ⟨_, rfl, rfl⟩, rfl⟩

end Rice

/-! ## Discarded errors: the car that does not decode -/

namespace Contracts

open Fabric

theorem RegisterCar_panics_on_malformed (ctx : Ctx) (carID ownerName registrationNumber : String)
    (bytes : Bytes)
    (hmsp : GetMSPID ctx = .ok "Org3MSP") (hget : GetState ctx carID = .ok (some bytes))
    (hbad : unmarshalCar bytes = none) :
    RegisterCar ctx carID ownerName registrationNumber = (.panic, ctx) := by
  have hg : ctx.getStateErr carID = none := by
    cases hg : ctx.getStateErr carID with
    | none => rfl
    | some e => simp [GetState, hg] at hget
  have hv : kvGet carID ctx.world = some bytes := by
    simpa [GetState, hg] using hget
  simp [RegisterCar, hmsp, CarExists, hget, ReadCar, hbad]

/-- C21 fails on the code: `RegisterCar` discards the error of `ReadCar`.  For
the value under "V1", which is stored but is not a car, `CarExists` is true and
`ReadCar` fails with "could not unmarshal world state data to type Car", and
`RegisterCar` called by "Org3MSP" then assigns to a field of the nil car: it
panics instead of returning that error (it writes nothing), whereas
`GetMatchingOrders` on the same key returns the error of `ReadCar`. -/
theorem RegisterCar_nil_car :
    GetMSPID ctxJunkCar = .ok "Org3MSP" ∧
    CarExists ctxJunkCar "V1" = .ok true ∧
    ReadCar ctxJunkCar "V1" = .error "could not unmarshal world state data to type Car" ∧
    (RegisterCar ctxJunkCar "V1" "Alice" "KL-01").1 = .panic ∧
    (RegisterCar ctxJunkCar "V1" "Alice" "KL-01").1 ≠
      .error "could not unmarshal world state data to type Car" ∧
    (RegisterCar ctxJunkCar "V1" "Alice" "KL-01").2.world = [("V1", .junk "not json")] ∧
    (GetMatchingOrders ctxJunkCar "V1").1 =
      .error "Error reading car could not unmarshal world state data to type Car" := by
  refine ⟨rfl, rfl, rfl, rfl, ?_, rfl, rfl⟩
  intro h
  cases h

end Contracts

/-! ## The quantity text: `strconv.Atoi` and the batch that is stored -/

namespace Rice

theorem digitsValue_le (cs : List Char) (acc v : Nat) (h : digitsValue cs acc = some v) :
    acc ≤ v := by
  induction cs generalizing acc with
  | nil =>
    simp [digitsValue] at h
    omega
  | cons c rest ih =>
    unfold digitsValue at h
    split at h
    · have := ih _ h
      omega
    · cases h

theorem parseUintLoop_append (pre rest : List Char) (acc v : Nat)
    (h : digitsValue pre acc = some v) (hv : v ≤ 18446744073709551615) :
    parseUintLoop (pre ++ rest) acc = parseUintLoop rest v := by
  induction pre generalizing acc with
  | nil =>
    simp [digitsValue] at h
    subst h
    rfl
  | cons c cs ih =>
    unfold digitsValue at h
    split at h
    · rename_i hd
      have hle := digitsValue_le _ _ _ h
      rw [List.cons_append, parseUintLoop, if_pos hd, if_neg (by omega), if_neg (by omega)]
      exact ih _ h
    · cases h

theorem parseUintLoop_of_digitsValue (cs : List Char) (v : Nat)
    (h : digitsValue cs 0 = some v) (hv : v ≤ 18446744073709551615) :
    parseUintLoop cs 0 = .ok v := by
  have := parseUintLoop_append cs [] 0 v h hv
  rw [List.append_nil] at this
  rw [this]
  rfl

theorem parseUintLoop_overflow (pre rest : List Char) (acc v : Nat)
    (h : digitsValue pre acc = some v) (hacc : acc ≤ 18446744073709551615)
    (hv : 18446744073709551615 < v) :
    parseUintLoop (pre ++ rest) acc = .error .outOfRange := by
  induction pre generalizing acc with
  | nil =>
    simp [digitsValue] at h
    omega
  | cons c cs ih =>
    unfold digitsValue at h
    split at h
    · rename_i hd
      rw [List.cons_append, parseUintLoop, if_pos hd]
      by_cases h1 : 1844674407370955162 ≤ acc
      · rw [if_pos h1]
      · rw [if_neg h1]
        by_cases h2 : 18446744073709551615 < acc * 10 + (c.toNat - 48)
        · rw [if_pos h2]
        · rw [if_neg h2]
          exact ih _ h (by omega)
    · cases h

theorem parseUintLoop_malformed (pre post : List Char) (c : Char) (v : Nat)
    (h : digitsValue pre 0 = some v) (hv : v ≤ 18446744073709551615)
    (hc : ¬(48 ≤ c.toNat ∧ c.toNat ≤ 57)) :
    parseUintLoop (pre ++ c :: post) 0 = .error .malformed := by
  rw [parseUintLoop_append pre (c :: post) 0 v h hv, parseUintLoop, if_neg hc]

theorem digitsValue_of_parseUintLoop (cs : List Char) (acc v : Nat)
    (h : parseUintLoop cs acc = .ok v) : digitsValue cs acc = some v := by
  induction cs generalizing acc with
  | nil =>
    simp [parseUintLoop] at h
    simp [digitsValue, h]
  | cons c rest ih =>
    rw [parseUintLoop] at h
    split at h
    · rename_i hd
      split at h
      · cases h
      · split at h
        · cases h
        · rw [digitsValue, if_pos hd]
          exact ih _ h
    · cases h

theorem Atoi_cons (s : String) (c : Char) (cs : List Char) (h : unsignedPart s = c :: cs) :
    Atoi s = signedResult (isNegative s) (parseUintLoop (c :: cs) 0) := by
  unfold Atoi
  rw [h]

theorem Atoi_nil (s : String) (h : unsignedPart s = []) : Atoi s = (0, false) := by
  unfold Atoi
  rw [h]

theorem decimalValue_cons (s : String) (c : Char) (cs : List Char)
    (h : unsignedPart s = c :: cs) :
    decimalValue s = Option.map (withSign (isNegative s)) (digitsValue (c :: cs) 0) := by
  unfold decimalValue
  rw [h]

theorem decimalValue_digits (s : String) (n : Int) (h : decimalValue s = some n) :
    ∃ (c : Char) (cs : List Char) (v : Nat), unsignedPart s = c :: cs ∧
      digitsValue (c :: cs) 0 = some v ∧ n = withSign (isNegative s) v := by
  cases hu : unsignedPart s with
  | nil => simp [decimalValue, hu] at h
  | cons c cs =>
    rw [decimalValue_cons s c cs hu] at h
    cases hd : digitsValue (c :: cs) 0 with
    | none => simp [hd] at h
    | some v =>
      simp [hd] at h
      exact ⟨c, cs, v, rfl, hd, h.symm⟩

theorem Atoi_of_decimalValue (s : String) (n : Int) (h : decimalValue s = some n)
    (hn : inInt64 n = true) : Atoi s = (n, true) := by
  obtain ⟨c, cs, v, hu, hd, hv⟩ := decimalValue_digits s n h
  simp only [inInt64, decide_eq_true_eq] at hn
  rw [Atoi_cons s c cs hu]
  cases hneg : isNegative s with
  | true =>
    simp only [hneg, withSign, if_true] at hv
    rw [parseUintLoop_of_digitsValue _ v hd (by omega)]
    simp only [signedResult, if_true]
    rw [if_neg (by omega), hv]
  | false =>
    simp only [hneg, withSign, Bool.false_eq_true, if_false] at hv
    rw [parseUintLoop_of_digitsValue _ v hd (by omega)]
    simp only [signedResult, Bool.false_eq_true, if_false]
    rw [if_neg (by omega), hv]

theorem Atoi_out_of_range (s : String) (n : Int) (h : decimalValue s = some n)
    (hn : inInt64 n = false) :
    Atoi s = (if 0 ≤ n then 9223372036854775807 else -9223372036854775808, false) := by
  obtain ⟨c, cs, v, hu, hd, hv⟩ := decimalValue_digits s n h
  simp only [inInt64, decide_eq_false_iff_not] at hn
  rw [Atoi_cons s c cs hu]
  by_cases hbig : v ≤ 18446744073709551615
  · rw [parseUintLoop_of_digitsValue _ v hd hbig]
    cases hneg : isNegative s with
    | true =>
      simp only [hneg, withSign, if_true] at hv
      simp only [signedResult, if_true]
      rw [if_pos (by omega), if_neg (by omega)]
    | false =>
      simp only [hneg, withSign, Bool.false_eq_true, if_false] at hv
      simp only [signedResult, Bool.false_eq_true, if_false]
      rw [if_pos (by omega), if_pos (by omega)]
  · have := parseUintLoop_overflow (c :: cs) [] 0 v hd (by omega) (by omega)
    rw [List.append_nil] at this
    rw [this]
    cases hneg : isNegative s with
    | true =>
      simp only [hneg, withSign, if_true] at hv
      simp only [signedResult, if_true]
      rw [if_neg (by omega)]
    | false =>
      simp only [hneg, withSign, Bool.false_eq_true, if_false] at hv
      simp only [signedResult, Bool.false_eq_true, if_false]
      rw [if_pos (by omega)]

theorem decimalValue_of_Atoi (s : String) (h : (Atoi s).2 = true) :
    decimalValue s = some (Atoi s).1 ∧ inInt64 (Atoi s).1 = true := by
  cases hu : unsignedPart s with
  | nil => simp [Atoi_nil s hu] at h
  | cons c cs =>
    rw [Atoi_cons s c cs hu] at h ⊢
    rw [decimalValue_cons s c cs hu]
    cases hp : parseUintLoop (c :: cs) 0 with
    | error e =>
      rw [hp] at h
      cases e with
      | malformed => simp [signedResult] at h
      | outOfRange =>
        simp only [signedResult] at h
        split at h <;> cases h
    | ok un =>
      rw [hp] at h
      rw [digitsValue_of_parseUintLoop _ _ _ hp]
      cases hneg : isNegative s with
      | true =>
        rw [hneg] at h
        simp only [signedResult, if_true] at h ⊢
        split at h
        · cases h
        · rename_i hle
          rw [if_neg hle]
          simp only [inInt64, decide_eq_true_eq, Option.map_some', withSign, if_true]
          exact ⟨trivial, by omega⟩
      | false =>
        rw [hneg] at h
        simp only [signedResult, Bool.false_eq_true, if_false] at h ⊢
        split at h
        · cases h
        · rename_i hle
          rw [if_neg hle]
          simp only [inInt64, decide_eq_true_eq, Option.map_some', withSign,
            Bool.false_eq_true, if_false]
          exact ⟨trivial, by omega⟩

theorem Atoi_error_value (s : String) (h : (Atoi s).2 = false) :
    (Atoi s).1 = 0 ∨ (Atoi s).1 = 9223372036854775807 ∨
      (Atoi s).1 = -9223372036854775808 := by
  cases hu : unsignedPart s with
  | nil => exact Or.inl (by rw [Atoi_nil s hu])
  | cons c cs =>
    rw [Atoi_cons s c cs hu] at h ⊢
    cases hp : parseUintLoop (c :: cs) 0 with
    | error e =>
      cases e with
      | malformed => exact Or.inl rfl
      | outOfRange =>
        simp only [signedResult]
        split
        · exact Or.inr (Or.inr rfl)
        · exact Or.inr (Or.inl rfl)
    | ok un =>
      rw [hp] at h
      simp only [signedResult] at h ⊢
      split at h
      · split at h
        · rename_i h1 h2
          rw [if_pos h1, if_pos h2]
          exact Or.inr (Or.inr rfl)
        · cases h
      · split at h
        · rename_i h1 h2
          rw [if_neg h1, if_pos h2]
          exact Or.inr (Or.inl rfl)
        · cases h

theorem inInt64_Atoi (s : String) : inInt64 (Atoi s).1 = true := by
  cases h : (Atoi s).2 with
  | true => exact (decimalValue_of_Atoi s h).2
  | false =>
    rcases Atoi_error_value s h with e | e | e <;> rw [e] <;> decide

theorem Atoi_malformed (s : String)
    (h : unsignedPart s = [] ∨ ∃ (pre post : List Char) (c : Char) (v : Nat),
      unsignedPart s = pre ++ c :: post ∧ digitsValue pre 0 = some v ∧
      v ≤ 18446744073709551615 ∧ ¬(48 ≤ c.toNat ∧ c.toNat ≤ 57)) :
    Atoi s = (0, false) := by
  rcases h with hu | ⟨pre, post, c, v, hu, hd, hv, hc⟩
  · exact Atoi_nil s hu
  · have hp := parseUintLoop_malformed pre post c v hd hv hc
    cases hl : pre ++ c :: post with
    | nil => simp at hl
    | cons d ds =>
      rw [hl] at hu hp
      rw [Atoi_cons s d ds hu, hp]
      rfl

theorem Atoi_overflow (s : String) (pre post : List Char) (v : Nat)
    (hu : unsignedPart s = pre ++ post) (hd : digitsValue pre 0 = some v)
    (hv : 18446744073709551615 < v) :
    Atoi s = (if isNegative s then -9223372036854775808 else 9223372036854775807, false) := by
  have hp := parseUintLoop_overflow pre post 0 v hd (by omega) hv
  cases hl : pre ++ post with
  | nil =>
    rw [hl] at hp
    simp [parseUintLoop] at hp
  | cons d ds =>
    rw [hl] at hu hp
    rw [Atoi_cons s d ds hu, hp]
    simp only [signedResult]
    split <;> rfl

theorem Atoi_rejects (s : String)
    (h : ∀ n : Int, decimalValue s = some n → inInt64 n = false) : (Atoi s).2 = false := by
  cases hb : (Atoi s).2 with
  | false => rfl
  | true =>
    have hd := decimalValue_of_Atoi s hb
    rw [h _ hd.1] at hd
    exact absurd hd.2 (by decide)

theorem AddRiceBatch_absent (ctx : Ctx) (batchID harvestDate quantityStr location
    qualityGrade : String) (habsent : GetState ctx batchID = .ok none)
    (hput : ctx.putStateErr batchID = none) :
    ∃ farmer : String, (ctx.clientID = .ok farmer ∨ (farmer = "" ∧ ∃ e, ctx.clientID = .error e)) ∧
      AddRiceBatch ctx batchID harvestDate quantityStr location qualityGrade =
        (.ok (), { ctx with
          world := kvPut batchID (marshalBatch
            { BatchID := batchID, Farmer := farmer, HarvestDate := harvestDate,
              Quantity := (Atoi quantityStr).1, Location := location,
              QualityGrade := qualityGrade, CurrentHolder := "Farmer" }) ctx.world }) := by
  cases hid : ctx.clientID with
  | ok id =>
    exact ⟨id, Or.inl rfl, by simp [AddRiceBatch, RiceBatchExists, habsent, PutState, hput, hid]⟩
  | error e =>
    exact ⟨"", Or.inr ⟨rfl, e, rfl⟩,
      by simp [AddRiceBatch, RiceBatchExists, habsent, PutState, hput, hid]⟩

theorem getStateErr_of_absent (ctx : Ctx) (batchID : String)
    (habsent : GetState ctx batchID = .ok none) : ctx.getStateErr batchID = none := by
  cases hg : ctx.getStateErr batchID with
  | none => rfl
  | some e => simp [GetState, hg] at habsent

/-- Counterexample to C15 as stated: "99999999999999999999" is a decimal
integer, the key "BATCH101" is absent from the empty ledger and `AddRiceBatch`
succeeds, but the batch read back has the quantity 9223372036854775807, the
largest `int`, and not the integer the text denotes. -/
theorem AddRiceBatch_large_quantity_counterexample :
    GetState emptyCtx "BATCH101" = .ok none ∧
    decimalValue "99999999999999999999" = some 99999999999999999999 ∧
    (AddRiceBatch emptyCtx "BATCH101" "2025-07-01" "99999999999999999999" "Kuttanad"
      "GradeA").1 = .ok () ∧
    ReadRiceBatch (AddRiceBatch emptyCtx "BATCH101" "2025-07-01" "99999999999999999999"
      "Kuttanad" "GradeA").2 "BATCH101" =
      .ok { batch101 with Quantity := 9223372036854775807 } ∧
    ReadRiceBatch (AddRiceBatch emptyCtx "BATCH101" "2025-07-01" "99999999999999999999"
      "Kuttanad" "GradeA").2 "BATCH101" ≠
      .ok { batch101 with Quantity := 99999999999999999999 } := by
  refine ⟨rfl, by decide, rfl, rfl, ?_⟩
  intro h
  have h2 : ReadRiceBatch (AddRiceBatch emptyCtx "BATCH101" "2025-07-01" "99999999999999999999"
      "Kuttanad" "GradeA").2 "BATCH101" =
      .ok { batch101 with Quantity := 9223372036854775807 } := rfl
  rw [h2] at h
  have h3 := congrArg RiceBatch.Quantity (Except.ok.inj h)
  exact absurd h3 (by decide)

/-- C15 amended: for a key that reads as absent, a quantity text that is a
decimal integer, a caller whose client id is known and a write that goes
through, `AddRiceBatch` succeeds and `ReadRiceBatch` then returns the batch
with the given id, harvest date, location and grade, the caller's client id as
farmer and "Farmer" as holder; its quantity is the integer the text denotes
when that integer fits `int` (64 bits), and otherwise the bound of `int` on
the side of the integer.  When the key is already stored it fails with
"batch <id> already exists" and returns the context it was given. -/
theorem AddRiceBatch_then_ReadRiceBatch (ctx : Ctx) (batchID harvestDate quantityStr location
    qualityGrade : String) :
    (∀ (clientID : String) (quantity : Int), GetState ctx batchID = .ok none →
      decimalValue quantityStr = some quantity →
      ctx.clientID = .ok clientID → ctx.putStateErr batchID = none →
      (AddRiceBatch ctx batchID harvestDate quantityStr location qualityGrade).1 = .ok () ∧
      (inInt64 quantity = true →
        ReadRiceBatch (AddRiceBatch ctx batchID harvestDate quantityStr location qualityGrade).2
            batchID =
          .ok { BatchID := batchID, Farmer := clientID, HarvestDate := harvestDate,
                Quantity := quantity, Location := location, QualityGrade := qualityGrade,
                CurrentHolder := "Farmer" }) ∧
      (inInt64 quantity = false →
        ReadRiceBatch (AddRiceBatch ctx batchID harvestDate quantityStr location qualityGrade).2
            batchID =
          .ok { BatchID := batchID, Farmer := clientID, HarvestDate := harvestDate,
                Quantity := if 0 ≤ quantity then 9223372036854775807
                  else -9223372036854775808,
                Location := location, QualityGrade := qualityGrade,
                CurrentHolder := "Farmer" })) ∧
    (RiceBatchExists ctx batchID = .ok true →
      AddRiceBatch ctx batchID harvestDate quantityStr location qualityGrade =
        (.error ("batch " ++ batchID ++ " already exists"), ctx)) := by
  constructor
  · intro clientID quantity habsent hdec hid hput
    have hget := getStateErr_of_absent ctx batchID habsent
    obtain ⟨farmer, hfarmer, hres⟩ :=
      AddRiceBatch_absent ctx batchID harvestDate quantityStr location qualityGrade habsent hput
    have hf : farmer = clientID := by
      rcases hfarmer with h | ⟨_, e, h⟩
      · rw [hid] at h
        exact (Except.ok.inj h).symm
      · rw [hid] at h
        cases h
    subst hf
    rw [hres]
    refine ⟨rfl, ?_, ?_⟩
    · intro hin
      have hq := ReadRiceBatch_after_put ctx batchID
        { BatchID := batchID, Farmer := farmer, HarvestDate := harvestDate,
          Quantity := (Atoi quantityStr).1, Location := location,
          QualityGrade := qualityGrade, CurrentHolder := "Farmer" } hget
        (inInt64_Atoi quantityStr)
      rw [Atoi_of_decimalValue quantityStr quantity hdec hin] at hq
      rw [Atoi_of_decimalValue quantityStr quantity hdec hin]
      exact hq
    · intro hout
      have hq := ReadRiceBatch_after_put ctx batchID
        { BatchID := batchID, Farmer := farmer, HarvestDate := harvestDate,
          Quantity := (Atoi quantityStr).1, Location := location,
          QualityGrade := qualityGrade, CurrentHolder := "Farmer" } hget
        (inInt64_Atoi quantityStr)
      rw [Atoi_out_of_range quantityStr quantity hdec hout] at hq
      rw [Atoi_out_of_range quantityStr quantity hdec hout]
      exact hq
  · intro hex
    simp [AddRiceBatch, hex]

/-- Witness for C15: the call of the application, "BATCH101" with quantity
"100", on the empty ledger; the quantity "-99999999999999999999", which is
stored as the least `int`; and the first call on a ledger that has the
batch. -/
theorem AddRiceBatch_then_ReadRiceBatch_witness :
    GetState emptyCtx "BATCH101" = .ok none ∧ decimalValue "100" = some 100 ∧
    inInt64 100 = true ∧
    (AddRiceBatch emptyCtx "BATCH101" "2025-07-01" "100" "Kuttanad" "GradeA").1 = .ok () ∧
    ReadRiceBatch (AddRiceBatch emptyCtx "BATCH101" "2025-07-01" "100" "Kuttanad" "GradeA").2
      "BATCH101" = .ok batch101 ∧
    decimalValue "-99999999999999999999" = some (-99999999999999999999) ∧
    inInt64 (-99999999999999999999) = false ∧
    ReadRiceBatch (AddRiceBatch emptyCtx "BATCH101" "2025-07-01" "-99999999999999999999"
      "Kuttanad" "GradeA").2 "BATCH101" =
      .ok { batch101 with Quantity := -9223372036854775808 } ∧
    RiceBatchExists ctxBatches "BATCH101" = .ok true ∧
    AddRiceBatch ctxBatches "BATCH101" "2025-07-01" "100" "Kuttanad" "GradeA" =
      (.error "batch BATCH101 already exists", ctxBatches) := by
  have h1 := (AddRiceBatch_then_ReadRiceBatch emptyCtx "BATCH101" "2025-07-01" "100" "Kuttanad"
    "GradeA").1 "farmer1" 100 rfl (by decide) rfl rfl
  have h2 := (AddRiceBatch_then_ReadRiceBatch emptyCtx "BATCH101" "2025-07-01"
    "-99999999999999999999" "Kuttanad" "GradeA").1 "farmer1" (-99999999999999999999) rfl
    (by decide) rfl rfl
  have h3 := (AddRiceBatch_then_ReadRiceBatch ctxBatches "BATCH101" "2025-07-01" "100"
    "Kuttanad" "GradeA").2 rfl
  exact ⟨rfl, by decide, by decide, h1.1, h1.2.1 (by decide), by decide, by decide,
    h2.2.2 (by decide), rfl, h3⟩

/-- Counterexample to C22 as stated: "99999999999999999999x" is not a decimal
integer (it ends in a letter), the key "BATCH101" is absent from the empty
ledger and `AddRiceBatch` succeeds, but the batch read back has the quantity
9223372036854775807 and not 0: the digits leave the 64-bit range before the
letter is read. -/
theorem AddRiceBatch_digits_then_letter_counterexample :
    GetState emptyCtx "BATCH101" = .ok none ∧
    Char.ofNat 120 ∈ "99999999999999999999x".data ∧
    decimalValue "99999999999999999999x" = none ∧
    (AddRiceBatch emptyCtx "BATCH101" "2025-07-01" "99999999999999999999x" "Kuttanad"
      "GradeA").1 = .ok () ∧
    ReadRiceBatch (AddRiceBatch emptyCtx "BATCH101" "2025-07-01" "99999999999999999999x"
      "Kuttanad" "GradeA").2 "BATCH101" =
      .ok { batch101 with Quantity := 9223372036854775807 } ∧
    ReadRiceBatch (AddRiceBatch emptyCtx "BATCH101" "2025-07-01" "99999999999999999999x"
      "Kuttanad" "GradeA").2 "BATCH101" ≠ .ok { batch101 with Quantity := 0 } := by
  refine ⟨rfl, by decide, by decide, rfl, rfl, ?_⟩
  intro h
  have h2 : ReadRiceBatch (AddRiceBatch emptyCtx "BATCH101" "2025-07-01"
      "99999999999999999999x" "Kuttanad" "GradeA").2 "BATCH101" =
      .ok { batch101 with Quantity := 9223372036854775807 } := rfl
  rw [h2] at h
  have h3 := congrArg RiceBatch.Quantity (Except.ok.inj h)
  exact absurd h3 (by decide)

/-- C22 amended: for a key that reads as absent, a quantity text that is not a
decimal integer fitting `int` and a write that goes through, `AddRiceBatch`
still succeeds, and the batch read back has as quantity the value
`strconv.Atoi` returned together with its error: 0 or a bound of `int`.  It is
0 when nothing follows the optional sign, or when the first character that is
not a digit comes while the digits before it still fit 64 bits unsigned.  It
is the bound of `int` on the side of the sign when some leading digits no
longer fit 64 bits unsigned, whatever follows them, and when the text is a
decimal integer outside `int`. -/
theorem AddRiceBatch_accepts_bad_quantity (ctx : Ctx) (batchID harvestDate quantityStr
    location qualityGrade : String)
    (habsent : GetState ctx batchID = .ok none)
    (hbad : ∀ n : Int, decimalValue quantityStr = some n → inInt64 n = false)
    (hput : ctx.putStateErr batchID = none) :
    (AddRiceBatch ctx batchID harvestDate quantityStr location qualityGrade).1 = .ok () ∧
    (∃ batch, ReadRiceBatch
        (AddRiceBatch ctx batchID harvestDate quantityStr location qualityGrade).2 batchID =
        .ok batch ∧
      batch.BatchID = batchID ∧ batch.HarvestDate = harvestDate ∧
      batch.Location = location ∧ batch.QualityGrade = qualityGrade ∧
      batch.CurrentHolder = "Farmer" ∧
      Atoi quantityStr = (batch.Quantity, false) ∧
      (batch.Quantity = 0 ∨ batch.Quantity = 9223372036854775807 ∨
        batch.Quantity = -9223372036854775808) ∧
      ((unsignedPart quantityStr = [] ∨ ∃ (pre post : List Char) (c : Char) (v : Nat),
          unsignedPart quantityStr = pre ++ c :: post ∧ digitsValue pre 0 = some v ∧
          v ≤ 18446744073709551615 ∧ ¬(48 ≤ c.toNat ∧ c.toNat ≤ 57)) →
        batch.Quantity = 0) ∧
      (∀ (pre post : List Char) (v : Nat), unsignedPart quantityStr = pre ++ post →
        digitsValue pre 0 = some v → 18446744073709551615 < v →
        batch.Quantity =
          if isNegative quantityStr then -9223372036854775808 else 9223372036854775807) ∧
      (∀ n : Int, decimalValue quantityStr = some n →
        batch.Quantity = if 0 ≤ n then 9223372036854775807 else -9223372036854775808)) := by
  have hget := getStateErr_of_absent ctx batchID habsent
  have herr := Atoi_rejects quantityStr hbad
  obtain ⟨farmer, _, hres⟩ :=
    AddRiceBatch_absent ctx batchID harvestDate quantityStr location qualityGrade habsent hput
  rw [hres]
  refine ⟨rfl, _, ReadRiceBatch_after_put ctx batchID _ hget (inInt64_Atoi quantityStr),
    rfl, rfl, rfl, rfl, rfl, ?_, Atoi_error_value quantityStr herr, ?_, ?_, ?_⟩
  · show Atoi quantityStr = ((Atoi quantityStr).1, false)
    rw [← herr]
  · intro hm
    show (Atoi quantityStr).1 = 0
    rw [Atoi_malformed quantityStr hm]
  · intro pre post v hu hd hv
    show (Atoi quantityStr).1 = _
    rw [Atoi_overflow quantityStr pre post v hu hd hv]
  · intro n hn
    show (Atoi quantityStr).1 = _
    rw [Atoi_out_of_range quantityStr n hn (hbad n hn)]

/-- Witness for C22: the quantity texts "", "lots", "12x" and
"99999999999999999999" on the empty ledger. -/
theorem AddRiceBatch_accepts_bad_quantity_witness :
    GetState emptyCtx "BATCH101" = .ok none ∧
    decimalValue "" = none ∧ decimalValue "lots" = none ∧ decimalValue "12x" = none ∧
    decimalValue "99999999999999999999" = some 99999999999999999999 ∧
    inInt64 99999999999999999999 = false ∧
    (AddRiceBatch emptyCtx "BATCH101" "2025-07-01" "" "Kuttanad" "GradeA").1 = .ok () ∧
    ReadRiceBatch (AddRiceBatch emptyCtx "BATCH101" "2025-07-01" "" "Kuttanad" "GradeA").2
      "BATCH101" = .ok { batch101 with Quantity := 0 } ∧
    (AddRiceBatch emptyCtx "BATCH101" "2025-07-01" "lots" "Kuttanad" "GradeA").1 = .ok () ∧
    ReadRiceBatch (AddRiceBatch emptyCtx "BATCH101" "2025-07-01" "lots" "Kuttanad" "GradeA").2
      "BATCH101" = .ok { batch101 with Quantity := 0 } ∧
    (AddRiceBatch emptyCtx "BATCH101" "2025-07-01" "12x" "Kuttanad" "GradeA").1 = .ok () ∧
    ReadRiceBatch (AddRiceBatch emptyCtx "BATCH101" "2025-07-01" "12x" "Kuttanad" "GradeA").2
      "BATCH101" = .ok { batch101 with Quantity := 0 } ∧
    (AddRiceBatch emptyCtx "BATCH101" "2025-07-01" "99999999999999999999" "Kuttanad"
      "GradeA").1 = .ok () ∧
    ReadRiceBatch (AddRiceBatch emptyCtx "BATCH101" "2025-07-01" "99999999999999999999"
      "Kuttanad" "GradeA").2 "BATCH101" =
      .ok { batch101 with Quantity := 9223372036854775807 } := by
  have e1 : decimalValue "" = none := by decide
  have e2 : decimalValue "lots" = none := by decide
  have e3 : decimalValue "12x" = none := by decide
  have e4 : decimalValue "99999999999999999999" = some 99999999999999999999 := by decide
  have h1 := AddRiceBatch_accepts_bad_quantity emptyCtx "BATCH101" "2025-07-01" "" "Kuttanad"
    "GradeA" rfl (fun n h => by rw [e1] at h; cases h) rfl
  have h2 := AddRiceBatch_accepts_bad_quantity emptyCtx "BATCH101" "2025-07-01" "lots"
    "Kuttanad" "GradeA" rfl (fun n h => by rw [e2] at h; cases h) rfl
  have h3 := AddRiceBatch_accepts_bad_quantity emptyCtx "BATCH101" "2025-07-01" "12x"
    "Kuttanad" "GradeA" rfl (fun n h => by rw [e3] at h; cases h) rfl
  have h4 := AddRiceBatch_accepts_bad_quantity emptyCtx "BATCH101" "2025-07-01"
    "99999999999999999999" "Kuttanad" "GradeA" rfl
    (fun n h => by rw [e4] at h; cases h; decide) rfl
  exact ⟨rfl, e1, e2, e3, e4, by decide, h1.1, rfl, h2.1, rfl, h3.1, rfl, h4.1, rfl⟩

end Rice
